import Mathlib

/-!
# TQueue (tqueue.h): a FIFO queue composed from a storage policy and a guard policy

Shallow embedding of `src/tqueue.h`.

* A C++ object is a Lean structure holding its data members; a member function
  takes the object and returns the object it leaves behind together with its
  return value. A reference parameter `T& obj` is passed in as its prior value
  and handed back as its value on return.
* A call whose behaviour the language or library leaves undefined (for
  instance `front()` or `pop()` of an empty `std::queue`), and a lock
  acquisition that never returns, have no result: the functions return
  `Option`, and `none` stands for "no defined result".
* The containers of the C++ standard library and of Qt are modelled by their
  documented sequence semantics over `List`, head of the queue first.
  Allocation never fails (memory is unbounded), as the specification assumes.
* The template parameters of `TQueue` become type-class parameters:
  `QueueType` for `TQueueType` and `GuardType` for `TGuardType`.
* Execution is sequential: one thread calls the operations one after another.
-/

/-! ## Library containers -/

/-- Model of `std::queue<T>`: the elements in queue order, front first. -/
structure StdQueue (T : Type) where
  /-- The underlying sequence container. -/
  c : List T

namespace StdQueue

variable {T : Type}

/-- Model of `std::queue::empty`. -/
def empty (q : StdQueue T) : Bool := q.c.isEmpty

/-- Model of `std::queue::size`; `size_type` is unsigned and the element count
always fits in it. -/
def size (q : StdQueue T) : Nat := q.c.length

/-- Model of `std::queue::push`: append at the back. -/
def push (q : StdQueue T) (v : T) : StdQueue T := ⟨q.c ++ [v]⟩

/-- Model of `std::queue::front`; undefined on an empty queue. -/
def front (q : StdQueue T) : Option T :=
  match q.c with
  | [] => none
  | h :: _ => some h

/-- Model of `std::queue::pop`: remove the front element; undefined on an empty
queue. -/
def pop (q : StdQueue T) : Option (StdQueue T) :=
  match q.c with
  | [] => none
  | _ :: rest => some ⟨rest⟩

end StdQueue

/-- Model of `QQueue<T>` (a `QList<T>`): the elements in queue order, head
first. The source constructs `QMutex(QMutex::Recursive)`, the interface of
Qt 4 and Qt 5, where a `QList` counts its elements in `int`. -/
structure QQueue (T : Type) where
  /-- The elements of the list. -/
  items : List T

namespace QQueue

variable {T : Type}

/-- Model of `QList::isEmpty`. -/
def isEmpty (q : QQueue T) : Bool := q.items.isEmpty

/-- Model of `QList::count()`, an `int`; the list never holds more elements
than an `int` can count. -/
def count (q : QQueue T) : Int := Int.ofNat q.items.length

/-- Model of `QQueue::enqueue`: append at the tail. -/
def enqueue (q : QQueue T) (v : T) : QQueue T := ⟨q.items ++ [v]⟩

/-- Model of `QList::pop_front` (`removeFirst`): the list must not be empty. -/
def pop_front (q : QQueue T) : Option (QQueue T) :=
  match q.items with
  | [] => none
  | _ :: rest => some ⟨rest⟩

/-- Model of `QQueue::head` (`first`): the list must not be empty. -/
def head (q : QQueue T) : Option T :=
  match q.items with
  | [] => none
  | h :: _ => some h

/-- Model of `QQueue::dequeue` (`takeFirst`): remove the head and return it;
the list must not be empty. -/
def dequeue (q : QQueue T) : Option (T × QQueue T) :=
  match q.items with
  | [] => none
  | h :: rest => some (h, ⟨rest⟩)

end QQueue

/-! ## Storage policies -/

/-- The members `TQueue` uses of its `TQueueType<T>` base class. -/
class QueueType (Q : Type → Type) where
  /-- The member type `SizeType_`. -/
  SizeType_ : Type
  /-- The default constructor. -/
  ctor : {T : Type} → Q T
  /-- Member `empty_() const`. -/
  empty_ : {T : Type} → Q T → Bool
  /-- Member `size_() const`. -/
  size_ : {T : Type} → Q T → SizeType_
  /-- Member `put_(const T&)`. -/
  put_ : {T : Type} → Q T → T → Q T
  /-- Member `pop_()`. -/
  pop_ : {T : Type} → Q T → Option (Q T)
  /-- Member `readFront_(T&)`: the return value, `obj` on return, the object. -/
  readFront_ : {T : Type} → Q T → T → Option (Bool × T × Q T)
  /-- Member `get_(T&)`: the return value, `obj` on return, the object. -/
  get_ : {T : Type} → Q T → T → Option (Bool × T × Q T)

/-- Class template `TQueueSl<T>`. -/
structure TQueueSl (T : Type) where
  /-- Data member `std::queue<T> mQueue`. -/
  mQueue : StdQueue T

namespace TQueueSl

variable {T : Type}

/-- Constructor `TQueueSl() : mQueue() {}`. -/
def ctor : TQueueSl T := ⟨⟨[]⟩⟩

/-- Member `bool empty_() const { return mQueue.empty(); }`. -/
def empty_ (self : TQueueSl T) : Bool := self.mQueue.empty

/-- Member `SizeType_ size_() const { return mQueue.size(); }`. -/
def size_ (self : TQueueSl T) : Nat := self.mQueue.size

/-- Member `void put_(const T& obj) { mQueue.push(obj); }`. -/
def put_ (self : TQueueSl T) (obj : T) : TQueueSl T := ⟨self.mQueue.push obj⟩

/-- Member `void pop_() { mQueue.pop(); }`. -/
def pop_ (self : TQueueSl T) : Option (TQueueSl T) := do
  let m ← self.mQueue.pop
  pure ⟨m⟩

/-- Member `bool readFront_(T& obj)`. -/
def readFront_ (self : TQueueSl T) (obj : T) : Option (Bool × T × TQueueSl T) :=
  if self.empty_ then
    pure (false, obj, self)
  else do
    let obj ← self.mQueue.front
    pure (true, obj, self)

/-- Member `bool get_(T& obj)`. -/
def get_ (self : TQueueSl T) (obj : T) : Option (Bool × T × TQueueSl T) :=
  if self.empty_ then
    pure (false, obj, self)
  else do
    let obj ← self.mQueue.front
    let m ← self.mQueue.pop
    pure (true, obj, ⟨m⟩)

end TQueueSl

instance : QueueType TQueueSl where
  SizeType_ := Nat
  ctor := TQueueSl.ctor
  empty_ := TQueueSl.empty_
  size_ := TQueueSl.size_
  put_ := TQueueSl.put_
  pop_ := TQueueSl.pop_
  readFront_ := TQueueSl.readFront_
  get_ := TQueueSl.get_

/-- Class template `TQueueQt<T>`. -/
structure TQueueQt (T : Type) where
  /-- Data member `QQueue<T> mQueue`. -/
  mQueue : QQueue T

namespace TQueueQt

variable {T : Type}

/-- Constructor `TQueueQt() : mQueue() {}`. -/
def ctor : TQueueQt T := ⟨⟨[]⟩⟩

/-- Member `bool empty_() const { return mQueue.isEmpty(); }`. -/
def empty_ (self : TQueueQt T) : Bool := self.mQueue.isEmpty

/-- Member `SizeType_ size_() const { return mQueue.count(); }`, with
`typedef int SizeType_`. -/
def size_ (self : TQueueQt T) : Int := self.mQueue.count

/-- Member `void put_(const T& obj) { mQueue.enqueue(obj); }`. -/
def put_ (self : TQueueQt T) (obj : T) : TQueueQt T := ⟨self.mQueue.enqueue obj⟩

/-- Member `void pop_() { mQueue.pop_front(); }`. -/
def pop_ (self : TQueueQt T) : Option (TQueueQt T) := do
  let m ← self.mQueue.pop_front
  pure ⟨m⟩

/-- Member `bool readFront_(T& obj)`. -/
def readFront_ (self : TQueueQt T) (obj : T) : Option (Bool × T × TQueueQt T) :=
  if self.empty_ then
    pure (false, obj, self)
  else do
    let obj ← self.mQueue.head
    pure (true, obj, self)

/-- Member `bool get_(T& obj)`. -/
def get_ (self : TQueueQt T) (obj : T) : Option (Bool × T × TQueueQt T) :=
  if self.empty_ then
    pure (false, obj, self)
  else do
    let (obj, m) ← self.mQueue.dequeue
    pure (true, obj, ⟨m⟩)

end TQueueQt

instance : QueueType TQueueQt where
  SizeType_ := Int
  ctor := TQueueQt.ctor
  empty_ := TQueueQt.empty_
  size_ := TQueueQt.size_
  put_ := TQueueQt.put_
  pop_ := TQueueQt.pop_
  readFront_ := TQueueQt.readFront_
  get_ := TQueueQt.get_

/-! ## Lock primitives of the platform, as seen by the one calling thread -/

/-- Model of a Windows `CRITICAL_SECTION`: how many times the calling thread
has entered it without leaving. A critical section is re-entrant for its
owner, so entering always returns. -/
structure CriticalSection where
  /-- Number of entries not yet left. -/
  recursionCount : Nat
deriving DecidableEq, Repr

namespace CriticalSection

/-- Model of `InitializeCriticalSection`. -/
def Initialize : CriticalSection := ⟨0⟩

/-- Model of `EnterCriticalSection`. -/
def Enter (cs : CriticalSection) : Option CriticalSection :=
  some ⟨cs.recursionCount + 1⟩

/-- Model of `LeaveCriticalSection`; undefined when the thread does not own
the critical section. -/
def Leave (cs : CriticalSection) : Option CriticalSection :=
  if cs.recursionCount = 0 then none else some ⟨cs.recursionCount - 1⟩

end CriticalSection

/-- Model of a `QMutex` constructed with `QMutex::Recursive`: how many times
the calling thread has locked it without unlocking. -/
structure QMutex where
  /-- Number of locks not yet unlocked. -/
  lockCount : Nat
deriving DecidableEq, Repr

namespace QMutex

/-- Model of `QMutex::lock` on a recursive mutex. -/
def lock (m : QMutex) : Option QMutex := some ⟨m.lockCount + 1⟩

/-- Model of `QMutex::unlock`; undefined on a mutex that is not locked. -/
def unlock (m : QMutex) : Option QMutex :=
  if m.lockCount = 0 then none else some ⟨m.lockCount - 1⟩

end QMutex

/-- Model of a `QReadWriteLock` constructed with
`QReadWriteLock::NonRecursive`: the number of read locks held and whether the
write lock is held. -/
structure QReadWriteLock where
  /-- Number of read locks held. -/
  readers : Nat
  /-- Whether the write lock is held. -/
  writer : Bool
deriving DecidableEq, Repr

namespace QReadWriteLock

/-- Model of `QReadWriteLock::lockForRead`: blocks while the write lock is
held, which in sequential execution means it never returns. -/
def lockForRead (l : QReadWriteLock) : Option QReadWriteLock :=
  if l.writer then none else some ⟨l.readers + 1, false⟩

/-- Model of `QReadWriteLock::lockForWrite`: blocks while any lock is held. -/
def lockForWrite (l : QReadWriteLock) : Option QReadWriteLock :=
  if l.writer || l.readers != 0 then none else some ⟨0, true⟩

/-- Model of `QReadWriteLock::unlock`; undefined on a lock that is not
locked. -/
def unlock (l : QReadWriteLock) : Option QReadWriteLock :=
  if l.writer then some ⟨l.readers, false⟩
  else if l.readers = 0 then none
  else some ⟨l.readers - 1, false⟩

end QReadWriteLock

/-! ## Guard policies -/

/-- The members `TQueue` uses of its `TGuardType` base class: the constructor,
and the constructors and destructors of the nested classes `TReadLocker` and
`TWriteLocker`, each as its effect on the guard. -/
class GuardType (G : Type) where
  /-- The default constructor. -/
  ctor : G
  /-- Constructor `TReadLocker(guard)`. -/
  readLockerCtor : G → Option G
  /-- Destructor of `TReadLocker`. -/
  readLockerDtor : G → Option G
  /-- Constructor `TWriteLocker(guard)`. -/
  writeLockerCtor : G → Option G
  /-- Destructor of `TWriteLocker`. -/
  writeLockerDtor : G → Option G

/-- Class `TNoGuard`: no data members. -/
structure TNoGuard where
deriving DecidableEq, Repr

namespace TNoGuard

/-- Constructor `TNoGuard() {}`. -/
def ctor : TNoGuard := ⟨⟩

/-- Constructor `TLocker(TNoGuard&) {}`. -/
def TLocker.ctor (guard : TNoGuard) : Option TNoGuard := some guard

/-- The implicit destructor of `TLocker`. -/
def TLocker.dtor (guard : TNoGuard) : Option TNoGuard := some guard

/-- Constructor `TReadLocker(TNoGuard& guard) : TLocker(guard) {}`. -/
def TReadLocker.ctor (guard : TNoGuard) : Option TNoGuard := TLocker.ctor guard

/-- The implicit destructor of `TReadLocker`. -/
def TReadLocker.dtor (guard : TNoGuard) : Option TNoGuard := TLocker.dtor guard

/-- Constructor `TWriteLocker(TNoGuard& guard) : TLocker(guard) {}`. -/
def TWriteLocker.ctor (guard : TNoGuard) : Option TNoGuard := TLocker.ctor guard

/-- The implicit destructor of `TWriteLocker`. -/
def TWriteLocker.dtor (guard : TNoGuard) : Option TNoGuard := TLocker.dtor guard

end TNoGuard

instance : GuardType TNoGuard where
  ctor := TNoGuard.ctor
  readLockerCtor := TNoGuard.TReadLocker.ctor
  readLockerDtor := TNoGuard.TReadLocker.dtor
  writeLockerCtor := TNoGuard.TWriteLocker.ctor
  writeLockerDtor := TNoGuard.TWriteLocker.dtor

/-- Class `TWinCsGuard`. -/
structure TWinCsGuard where
  /-- Data member `::CRITICAL_SECTION mCs`. -/
  mCs : CriticalSection
deriving DecidableEq, Repr

namespace TWinCsGuard

/-- Constructor `TWinCsGuard() { ::InitializeCriticalSection(&mCs); }`. -/
def ctor : TWinCsGuard := ⟨CriticalSection.Initialize⟩

/-- Member `void enterCs() { ::EnterCriticalSection(&mCs); }`. -/
def enterCs (self : TWinCsGuard) : Option TWinCsGuard := do
  let cs ← self.mCs.Enter
  pure ⟨cs⟩

/-- Member `void leaveCs() { ::LeaveCriticalSection(&mCs); }`. -/
def leaveCs (self : TWinCsGuard) : Option TWinCsGuard := do
  let cs ← self.mCs.Leave
  pure ⟨cs⟩

/-- Constructor `TLocker(TWinCsGuard& guard) : mGuard(guard) { mGuard.enterCs(); }`. -/
def TLocker.ctor (guard : TWinCsGuard) : Option TWinCsGuard := guard.enterCs

/-- Destructor `~TLocker() { mGuard.leaveCs(); }`. -/
def TLocker.dtor (guard : TWinCsGuard) : Option TWinCsGuard := guard.leaveCs

/-- Constructor `TReadLocker(TWinCsGuard& guard) : TLocker(guard) {}`. -/
def TReadLocker.ctor (guard : TWinCsGuard) : Option TWinCsGuard := TLocker.ctor guard

/-- The implicit destructor of `TReadLocker`. -/
def TReadLocker.dtor (guard : TWinCsGuard) : Option TWinCsGuard := TLocker.dtor guard

/-- Constructor `TWriteLocker(TWinCsGuard& guard) : TLocker(guard) {}`. -/
def TWriteLocker.ctor (guard : TWinCsGuard) : Option TWinCsGuard := TLocker.ctor guard

/-- The implicit destructor of `TWriteLocker`. -/
def TWriteLocker.dtor (guard : TWinCsGuard) : Option TWinCsGuard := TLocker.dtor guard

end TWinCsGuard

instance : GuardType TWinCsGuard where
  ctor := TWinCsGuard.ctor
  readLockerCtor := TWinCsGuard.TReadLocker.ctor
  readLockerDtor := TWinCsGuard.TReadLocker.dtor
  writeLockerCtor := TWinCsGuard.TWriteLocker.ctor
  writeLockerDtor := TWinCsGuard.TWriteLocker.dtor

/-- Class `TQtMutexGuard`. -/
structure TQtMutexGuard where
  /-- Data member `QMutex mMutex`. -/
  mMutex : QMutex
deriving DecidableEq, Repr

namespace TQtMutexGuard

/-- Constructor `TQtMutexGuard() : mMutex(QMutex::Recursive) {}`. -/
def ctor : TQtMutexGuard := ⟨⟨0⟩⟩

/-- Constructor `TLocker(TQtMutexGuard& guard) : mMutexLocker(&guard.mMutex) { }`:
the `QMutexLocker` locks the mutex. -/
def TLocker.ctor (guard : TQtMutexGuard) : Option TQtMutexGuard := do
  let m ← guard.mMutex.lock
  pure ⟨m⟩

/-- The implicit destructor of `TLocker`: the `QMutexLocker` unlocks the
mutex. -/
def TLocker.dtor (guard : TQtMutexGuard) : Option TQtMutexGuard := do
  let m ← guard.mMutex.unlock
  pure ⟨m⟩

/-- Constructor `TReadLocker(TQtMutexGuard& guard) : TLocker(guard) {}`. -/
def TReadLocker.ctor (guard : TQtMutexGuard) : Option TQtMutexGuard := TLocker.ctor guard

/-- The implicit destructor of `TReadLocker`. -/
def TReadLocker.dtor (guard : TQtMutexGuard) : Option TQtMutexGuard := TLocker.dtor guard

/-- Constructor `TWriteLocker(TQtMutexGuard& guard) : TLocker(guard) {}`. -/
def TWriteLocker.ctor (guard : TQtMutexGuard) : Option TQtMutexGuard := TLocker.ctor guard

/-- The implicit destructor of `TWriteLocker`. -/
def TWriteLocker.dtor (guard : TQtMutexGuard) : Option TQtMutexGuard := TLocker.dtor guard

end TQtMutexGuard

instance : GuardType TQtMutexGuard where
  ctor := TQtMutexGuard.ctor
  readLockerCtor := TQtMutexGuard.TReadLocker.ctor
  readLockerDtor := TQtMutexGuard.TReadLocker.dtor
  writeLockerCtor := TQtMutexGuard.TWriteLocker.ctor
  writeLockerDtor := TQtMutexGuard.TWriteLocker.dtor

/-- Class `TQtReadWriteLockGuard`. -/
structure TQtReadWriteLockGuard where
  /-- Data member `QReadWriteLock mLock`. -/
  mLock : QReadWriteLock
deriving DecidableEq, Repr

namespace TQtReadWriteLockGuard

/-- Constructor `TQtReadWriteLockGuard() : mLock(QReadWriteLock::NonRecursive) {}`. -/
def ctor : TQtReadWriteLockGuard := ⟨⟨0, false⟩⟩

/-- Constructor `TReadLocker(TQtReadWriteLockGuard& guard) : mReadLocker(&guard.mLock) {}`:
the `QReadLocker` locks for reading. -/
def TReadLocker.ctor (guard : TQtReadWriteLockGuard) : Option TQtReadWriteLockGuard := do
  let l ← guard.mLock.lockForRead
  pure ⟨l⟩

/-- The implicit destructor of `TReadLocker`: the `QReadLocker` unlocks. -/
def TReadLocker.dtor (guard : TQtReadWriteLockGuard) : Option TQtReadWriteLockGuard := do
  let l ← guard.mLock.unlock
  pure ⟨l⟩

/-- Constructor `TWriteLocker(TQtReadWriteLockGuard& guard) : mWriteLocker(&guard.mLock) {}`:
the `QWriteLocker` locks for writing. -/
def TWriteLocker.ctor (guard : TQtReadWriteLockGuard) : Option TQtReadWriteLockGuard := do
  let l ← guard.mLock.lockForWrite
  pure ⟨l⟩

/-- The implicit destructor of `TWriteLocker`: the `QWriteLocker` unlocks. -/
def TWriteLocker.dtor (guard : TQtReadWriteLockGuard) : Option TQtReadWriteLockGuard := do
  let l ← guard.mLock.unlock
  pure ⟨l⟩

end TQtReadWriteLockGuard

instance : GuardType TQtReadWriteLockGuard where
  ctor := TQtReadWriteLockGuard.ctor
  readLockerCtor := TQtReadWriteLockGuard.TReadLocker.ctor
  readLockerDtor := TQtReadWriteLockGuard.TReadLocker.dtor
  writeLockerCtor := TQtReadWriteLockGuard.TWriteLocker.ctor
  writeLockerDtor := TQtReadWriteLockGuard.TWriteLocker.dtor

/-- A guard state in which a scoped read locker and a scoped write locker can
each be taken, and on release leave the guard as it was: no lock is held that
would keep the calling thread waiting. -/
def GuardType.Available {G : Type} [GuardType G] (g : G) : Prop :=
  (∃ g1, GuardType.readLockerCtor g = some g1 ∧ GuardType.readLockerDtor g1 = some g) ∧
  (∃ g1, GuardType.writeLockerCtor g = some g1 ∧ GuardType.writeLockerDtor g1 = some g)

/-! ## The queue -/

/-- Class template `TQueue<T, TQueueType, TGuardType>`, derived from
`TQueueType<T>` and from `TGuardType`. -/
structure TQueue (T : Type) (TQueueType : Type → Type) (TGuardType : Type) where
  /-- The base-class subobject `TQueueType<T>`. -/
  queue : TQueueType T
  /-- The base-class subobject `TGuardType`. -/
  guard : TGuardType

namespace TQueue

variable {T : Type} {Q : Type → Type} {G : Type} [QueueType Q] [GuardType G]

/-- Constructor `explicit TQueue() : TQueueType<T>(), TGuardType() { }`. -/
def ctor : TQueue T Q G := ⟨QueueType.ctor, GuardType.ctor⟩

/-- Member `bool empty() const`: a `TReadLocker` on the object itself for the
duration of `return this->empty_();`. -/
def empty (self : TQueue T Q G) : Option (Bool × TQueue T Q G) := do
  let g ← GuardType.readLockerCtor self.guard
  let r := QueueType.empty_ self.queue
  let g ← GuardType.readLockerDtor g
  pure (r, ⟨self.queue, g⟩)

/-- Member `SizeType size() const`: a `TReadLocker` for the duration of
`return this->size_();`. -/
def size (self : TQueue T Q G) : Option (QueueType.SizeType_ Q × TQueue T Q G) := do
  let g ← GuardType.readLockerCtor self.guard
  let r := QueueType.size_ self.queue
  let g ← GuardType.readLockerDtor g
  pure (r, ⟨self.queue, g⟩)

/-- Member `void put(const T& obj)`: a `TWriteLocker` for the duration of
`this->put_(obj);`. -/
def put (self : TQueue T Q G) (obj : T) : Option (TQueue T Q G) := do
  let g ← GuardType.writeLockerCtor self.guard
  let q := QueueType.put_ self.queue obj
  let g ← GuardType.writeLockerDtor g
  pure ⟨q, g⟩

/-- Member `void pop()`: a `TWriteLocker` for the duration of `this->pop_();`. -/
def pop (self : TQueue T Q G) : Option (TQueue T Q G) := do
  let g ← GuardType.writeLockerCtor self.guard
  let q ← QueueType.pop_ self.queue
  let g ← GuardType.writeLockerDtor g
  pure ⟨q, g⟩

/-- Member `bool readFront(T& obj)`: a `TReadLocker` for the duration of
`return this->readFront_(obj);`. -/
def readFront (self : TQueue T Q G) (obj : T) : Option (Bool × T × TQueue T Q G) := do
  let g ← GuardType.readLockerCtor self.guard
  let (r, obj, q) ← QueueType.readFront_ self.queue obj
  let g ← GuardType.readLockerDtor g
  pure (r, obj, ⟨q, g⟩)

/-- Member `bool get(T& obj)`: a `TWriteLocker` for the duration of
`return this->get_(obj);`. -/
def get (self : TQueue T Q G) (obj : T) : Option (Bool × T × TQueue T Q G) := do
  let g ← GuardType.writeLockerCtor self.guard
  let (r, obj, q) ← QueueType.get_ self.queue obj
  let g ← GuardType.writeLockerDtor g
  pure (r, obj, ⟨q, g⟩)

end TQueue

/-! ## Client programs: sequences of calls of the public operations -/

/-- One call of a public operation of `TQueue`; `readFront` and `get` are
called on the client's variable `x`. -/
inductive Call (T : Type) where
  | empty
  | size
  | put (obj : T)
  | pop
  | readFront
  | get
deriving DecidableEq, Repr

/-- What a call handed back to the client: the return value, and for
`readFront` and `get` also the value of `x` after the call. -/
inductive Result (S T : Type) where
  | empty (r : Bool)
  | size (n : S)
  | put
  | pop
  | readFront (r : Bool) (x : T)
  | get (r : Bool) (x : T)
deriving DecidableEq, Repr

namespace TQueue

variable {T : Type} {Q : Type → Type} {G : Type} [QueueType Q] [GuardType G]

/-- Perform one call on the queue `q` with the client's variable holding `x`:
what the call handed back, `x` afterwards, the queue afterwards. -/
def call (q : TQueue T Q G) (x : T) :
    Call T → Option (Result (QueueType.SizeType_ Q) T × T × TQueue T Q G)
  | .empty => do
    let (r, q) ← q.empty
    pure (.empty r, x, q)
  | .size => do
    let (n, q) ← q.size
    pure (.size n, x, q)
  | .put obj => do
    let q ← q.put obj
    pure (.put, x, q)
  | .pop => do
    let q ← q.pop
    pure (.pop, x, q)
  | .readFront => do
    let (r, x, q) ← q.readFront x
    pure (.readFront r x, x, q)
  | .get => do
    let (r, x, q) ← q.get x
    pure (.get r x, x, q)

/-- Perform the calls of a list one after another: what the calls handed back,
in call order, then `x` and the queue at the end. -/
def run (q : TQueue T Q G) (x : T) :
    List (Call T) → Option (List (Result (QueueType.SizeType_ Q) T) × T × TQueue T Q G)
  | [] => some ([], x, q)
  | c :: cs => do
    let (r, x, q) ← q.call x c
    let (rs, x, q) ← q.run x cs
    pure (r :: rs, x, q)

end TQueue

/-- The values yielded by the successful `get` calls, in call order. -/
def Result.gotten {S T : Type} : List (Result S T) → List T
  | [] => []
  | .get true x :: rs => x :: gotten rs
  | _ :: rs => gotten rs

/-- The values passed to `put`, in call order. -/
def Call.putValues {T : Type} : List (Call T) → List T
  | [] => []
  | .put v :: cs => v :: putValues cs
  | _ :: cs => putValues cs

/-- Whether a call is one of `put`, `get` and `readFront`. -/
def Call.isPutGetReadFront {T : Type} : Call T → Bool
  | .put _ => true
  | .get => true
  | .readFront => true
  | _ => false

/-! ## Programs on a storage policy alone: sequences of calls of its primitives -/

namespace QueueType

variable {T : Type} {Q : Type → Type} [QueueType Q]

/-- Perform one primitive on the storage object `q`, the call `c` naming the
primitive `c_` (`Call.get` for `get_`, and so on): what the primitive handed
back, `x` afterwards, the storage object afterwards. -/
def call_ (q : Q T) (x : T) : Call T → Option (Result (QueueType.SizeType_ Q) T × T × Q T)
  | .empty => some (.empty (QueueType.empty_ q), x, q)
  | .size => some (.size (QueueType.size_ q), x, q)
  | .put obj => some (.put, x, QueueType.put_ q obj)
  | .pop => do
    let q ← QueueType.pop_ q
    pure (.pop, x, q)
  | .readFront => do
    let (r, x, q) ← QueueType.readFront_ q x
    pure (.readFront r x, x, q)
  | .get => do
    let (r, x, q) ← QueueType.get_ q x
    pure (.get r x, x, q)

/-- Perform the primitives of a list one after another. -/
def run_ (q : Q T) (x : T) :
    List (Call T) → Option (List (Result (QueueType.SizeType_ Q) T) × T × Q T)
  | [] => some ([], x, q)
  | c :: cs => do
    let (r, x, q) ← call_ q x c
    let (rs, x, q) ← run_ q x cs
    pure (r :: rs, x, q)

end QueueType

/-- Read the size in a result through `f`, leaving everything else as it is:
used to compare a `size_t` with an `int`. -/
def Result.mapSize {S S1 T : Type} (f : S → S1) : Result S T → Result S1 T
  | .empty r => .empty r
  | .size n => .size (f n)
  | .put => .put
  | .pop => .pop
  | .readFront r x => .readFront r x
  | .get r x => .get r x

/-- Whether, in a sequence of calls started on a queue holding `n` elements,
every `pop` finds the queue non-empty. -/
def Call.popsOnNonEmpty {T : Type} : Nat → List (Call T) → Bool
  | _, [] => true
  | n, .put _ :: cs => popsOnNonEmpty (n + 1) cs
  | n, .get :: cs => popsOnNonEmpty (n - 1) cs
  | n, .pop :: cs => n != 0 && popsOnNonEmpty (n - 1) cs
  | n, _ :: cs => popsOnNonEmpty n cs

/-! ## Observing the lockers and the steps of a call

Two instruments, neither of them a class of the source.

* `TRecordingGuard` is a guard policy whose state is the trace of the
  constructions and destructions of its lockers. `TQueue` accepts as
  `TGuardType` any class with nested `TReadLocker` and `TWriteLocker`
  constructible from the guard, so the member functions `TQueue.empty` to
  `TQueue.get` defined above run under it unchanged, and the trace shows which
  lockers they take.
* The guard and the storage object are separate parts of the queue, so a trace
  kept by the guard does not show where the storage primitive falls between
  the locker's construction and destruction. For that, every method of a guard
  policy and every primitive of a storage policy gets a variant that also
  appends its own event to a log passed from call to call, and the member
  functions of `TQueue` are given once more over these variants. -/

/-- One step in the course of a call of a public operation: the construction
or destruction of a scoped locker, or the invocation of a storage primitive. -/
inductive Event where
  | readLockerCtor
  | readLockerDtor
  | writeLockerCtor
  | writeLockerDtor
  | empty_
  | size_
  | put_
  | pop_
  | readFront_
  | get_
deriving DecidableEq, Repr

/-- A guard policy for observation: its one data member is the trace of the
lockers constructed and destroyed on it so far. -/
structure TRecordingGuard where
  /-- The constructions and destructions of lockers, oldest first. -/
  trace : List Event
deriving DecidableEq, Repr

namespace TRecordingGuard

/-- The constructor: nothing has happened yet. -/
def ctor : TRecordingGuard := ⟨[]⟩

/-- The constructor of `TReadLocker` records itself; it always returns. -/
def TReadLocker.ctor (guard : TRecordingGuard) : Option TRecordingGuard :=
  some ⟨guard.trace ++ [Event.readLockerCtor]⟩

/-- The destructor of `TReadLocker` records itself. -/
def TReadLocker.dtor (guard : TRecordingGuard) : Option TRecordingGuard :=
  some ⟨guard.trace ++ [Event.readLockerDtor]⟩

/-- The constructor of `TWriteLocker` records itself; it always returns. -/
def TWriteLocker.ctor (guard : TRecordingGuard) : Option TRecordingGuard :=
  some ⟨guard.trace ++ [Event.writeLockerCtor]⟩

/-- The destructor of `TWriteLocker` records itself. -/
def TWriteLocker.dtor (guard : TRecordingGuard) : Option TRecordingGuard :=
  some ⟨guard.trace ++ [Event.writeLockerDtor]⟩

end TRecordingGuard

instance : GuardType TRecordingGuard where
  ctor := TRecordingGuard.ctor
  readLockerCtor := TRecordingGuard.TReadLocker.ctor
  readLockerDtor := TRecordingGuard.TReadLocker.dtor
  writeLockerCtor := TRecordingGuard.TWriteLocker.ctor
  writeLockerDtor := TRecordingGuard.TWriteLocker.dtor

namespace GuardType

variable {G : Type} [GuardType G]

end GuardType

namespace QueueType

variable {T : Type} {Q : Type → Type} [QueueType Q]

end QueueType

namespace TQueue

variable {T : Type} {Q : Type → Type} {G : Type} [QueueType Q] [GuardType G]

end TQueue

/-! ## Properties of a guard policy, stated over the public operations -/

/-- Scoped release under the guard policy `G`, for every storage policy and
every state of queue and guard: a call of a public operation that returns
leaves the guard in exactly the state it had before the call; `get` and
`readFront` on an empty, freshly guarded queue return false through their
early `return false` with the guard as constructed; and after any sequence of
completed calls on a freshly constructed queue the guard is as constructed,
that is, no lock is held. -/
def TQueue.ScopedRelease (G : Type) [GuardType G] : Prop :=
  (∀ (T : Type) (Q : Type → Type) [QueueType Q] (q : TQueue T Q G) (x : T) (c : Call T)
      (r : Result (QueueType.SizeType_ Q) T) (x1 : T) (q1 : TQueue T Q G),
      q.call x c = some (r, x1, q1) → q1.guard = q.guard)
  ∧ (∀ (T : Type) (x : T),
      (⟨⟨⟨[]⟩⟩, GuardType.ctor⟩ : TQueue T TQueueSl G).get x
        = some (false, x, ⟨⟨⟨[]⟩⟩, GuardType.ctor⟩)
      ∧ (⟨⟨⟨[]⟩⟩, GuardType.ctor⟩ : TQueue T TQueueSl G).readFront x
        = some (false, x, ⟨⟨⟨[]⟩⟩, GuardType.ctor⟩)
      ∧ (⟨⟨⟨[]⟩⟩, GuardType.ctor⟩ : TQueue T TQueueQt G).get x
        = some (false, x, ⟨⟨⟨[]⟩⟩, GuardType.ctor⟩)
      ∧ (⟨⟨⟨[]⟩⟩, GuardType.ctor⟩ : TQueue T TQueueQt G).readFront x
        = some (false, x, ⟨⟨⟨[]⟩⟩, GuardType.ctor⟩))
  ∧ (∀ (T : Type) (Q : Type → Type) [QueueType Q] (calls : List (Call T)) (x : T)
      (rs : List (Result (QueueType.SizeType_ Q) T)) (x1 : T) (q1 : TQueue T Q G),
      (TQueue.ctor : TQueue T Q G).run x calls = some (rs, x1, q1) →
        q1.guard = GuardType.ctor)

/-- Guard transparency at the guard state `g`: for every storage policy and
every state `b` of the storage object, each public operation of `TQueue`
returns, and hands back, what the corresponding storage primitive applied to
`b` hands back (the same result, the same `obj`, the same resulting storage
object), and has no result exactly when the primitive has none. -/
def TQueue.Transparent {G : Type} [GuardType G] (g : G) : Prop :=
  ∀ (T : Type) (Q : Type → Type) [QueueType Q] (b : Q T) (x v : T),
    TQueue.empty (⟨b, g⟩ : TQueue T Q G) = some (QueueType.empty_ b, ⟨b, g⟩)
    ∧ TQueue.size (⟨b, g⟩ : TQueue T Q G) = some (QueueType.size_ b, ⟨b, g⟩)
    ∧ TQueue.put (⟨b, g⟩ : TQueue T Q G) v = some ⟨QueueType.put_ b v, g⟩
    ∧ TQueue.pop (⟨b, g⟩ : TQueue T Q G) = (QueueType.pop_ b).map (fun b1 => ⟨b1, g⟩)
    ∧ TQueue.readFront (⟨b, g⟩ : TQueue T Q G) x
        = (QueueType.readFront_ b x).map (fun r => (r.1, r.2.1, ⟨r.2.2, g⟩))
    ∧ TQueue.get (⟨b, g⟩ : TQueue T Q G) x
        = (QueueType.get_ b x).map (fun r => (r.1, r.2.1, ⟨r.2.2, g⟩))

/-! ## Client loop and counts -/

/-- Client loop `while (q.get(x)) { }`, run for at most `fuel` calls of `get`:
the values of `x` after the successful calls, in call order, the number of
calls of `get` made, then `x` and the queue when the loop exits. There is no
result when a call has none, or when `fuel` calls did not end the loop. -/
def TQueue.drain {T : Type} {Q : Type → Type} {G : Type} [QueueType Q] [GuardType G] :
    Nat → TQueue T Q G → T → Option (List T × Nat × T × TQueue T Q G)
  | 0, _, _ => none
  | fuel + 1, q, x => do
    let (r, x, q) ← q.get x
    if r then
      let (vs, n, x1, q1) ← TQueue.drain fuel q x
      pure (x :: vs, n + 1, x1, q1)
    else
      pure ([], 1, x, q)

/-- The number of `put` calls among the results of a run. -/
def Result.countPuts {S T : Type} : List (Result S T) → Nat
  | [] => 0
  | .put :: rs => countPuts rs + 1
  | _ :: rs => countPuts rs

/-- The number of successful `get` calls among the results of a run. -/
def Result.countGets {S T : Type} : List (Result S T) → Nat
  | [] => 0
  | .get true _ :: rs => countGets rs + 1
  | _ :: rs => countGets rs

/-- The number of `pop` calls among the results of a run. -/
def Result.countPops {S T : Type} : List (Result S T) → Nat
  | [] => 0
  | .pop :: rs => countPops rs + 1
  | _ :: rs => countPops rs

/-- Proof interface: the storage policy `Q` acts on the state `ofList xs`, which
holds the elements `xs` head first, as a FIFO sequence does. Both storage
policies of the source are shown to satisfy it below. -/
structure QueueType.IsFifo (Q : Type → Type) [QueueType Q]
    (ofList : {T : Type} → List T → Q T) : Prop where
  ctor_eq : ∀ {T : Type}, (QueueType.ctor : Q T) = ofList []
  empty_eq : ∀ {T : Type} (xs : List T), QueueType.empty_ (ofList xs) = xs.isEmpty
  put_eq : ∀ {T : Type} (xs : List T) (v : T),
    QueueType.put_ (ofList xs) v = ofList (xs ++ [v])
  pop_nil : ∀ {T : Type}, QueueType.pop_ (ofList ([] : List T)) = none
  pop_cons : ∀ {T : Type} (h : T) (t : List T),
    QueueType.pop_ (ofList (h :: t)) = some (ofList t)
  readFront_nil : ∀ {T : Type} (x : T),
    QueueType.readFront_ (ofList []) x = some (false, x, ofList [])
  readFront_cons : ∀ {T : Type} (h : T) (t : List T) (x : T),
    QueueType.readFront_ (ofList (h :: t)) x = some (true, h, ofList (h :: t))
  get_nil : ∀ {T : Type} (x : T),
    QueueType.get_ (ofList []) x = some (false, x, ofList [])
  get_cons : ∀ {T : Type} (h : T) (t : List T) (x : T),
    QueueType.get_ (ofList (h :: t)) x = some (true, h, ofList t)

/-! ## Lemmas on the guard policies -/

theorem TNoGuard.available_noGuard (g : TNoGuard) : GuardType.Available g :=
  ⟨⟨g, rfl, rfl⟩, ⟨g, rfl, rfl⟩⟩

theorem TWinCsGuard.available_winCs (g : TWinCsGuard) : GuardType.Available g :=
  ⟨⟨⟨⟨g.mCs.recursionCount + 1⟩⟩, rfl, rfl⟩, ⟨⟨⟨g.mCs.recursionCount + 1⟩⟩, rfl, rfl⟩⟩

theorem TQtMutexGuard.available_qtMutex (g : TQtMutexGuard) : GuardType.Available g :=
  ⟨⟨⟨⟨g.mMutex.lockCount + 1⟩⟩, rfl, rfl⟩, ⟨⟨⟨g.mMutex.lockCount + 1⟩⟩, rfl, rfl⟩⟩

theorem TQtReadWriteLockGuard.available_ctor :
    GuardType.Available TQtReadWriteLockGuard.ctor :=
  ⟨⟨⟨⟨1, false⟩⟩, rfl, rfl⟩, ⟨⟨⟨0, true⟩⟩, rfl, rfl⟩⟩

/-! ## Lemmas on the storage policies -/

theorem TQueueSl.isFifo_sl : QueueType.IsFifo TQueueSl (fun xs => ⟨⟨xs⟩⟩) where
  ctor_eq := rfl
  empty_eq := fun _ => rfl
  put_eq := fun _ _ => rfl
  pop_nil := rfl
  pop_cons := fun _ _ => rfl
  readFront_nil := fun _ => rfl
  readFront_cons := fun _ _ _ => rfl
  get_nil := fun _ => rfl
  get_cons := fun _ _ _ => rfl

theorem TQueueQt.isFifo_qt : QueueType.IsFifo TQueueQt (fun xs => ⟨⟨xs⟩⟩) where
  ctor_eq := rfl
  empty_eq := fun _ => rfl
  put_eq := fun _ _ => rfl
  pop_nil := rfl
  pop_cons := fun _ _ => rfl
  readFront_nil := fun _ => rfl
  readFront_cons := fun _ _ _ => rfl
  get_nil := fun _ => rfl
  get_cons := fun _ _ _ => rfl

section primitives

variable {T : Type}

theorem TQueueSl.empty_sl (xs : List T) :
    QueueType.empty_ (⟨⟨xs⟩⟩ : TQueueSl T) = xs.isEmpty := rfl

theorem TQueueSl.size_sl (xs : List T) :
    QueueType.size_ (⟨⟨xs⟩⟩ : TQueueSl T) = xs.length := rfl

theorem TQueueSl.put_sl (xs : List T) (v : T) :
    QueueType.put_ (⟨⟨xs⟩⟩ : TQueueSl T) v = ⟨⟨xs ++ [v]⟩⟩ := rfl

theorem TQueueSl.pop_sl (h : T) (t : List T) :
    QueueType.pop_ (⟨⟨h :: t⟩⟩ : TQueueSl T) = some ⟨⟨t⟩⟩ := rfl

theorem TQueueSl.readFront_nil_sl (x : T) :
    QueueType.readFront_ (⟨⟨[]⟩⟩ : TQueueSl T) x = some (false, x, ⟨⟨[]⟩⟩) := rfl

theorem TQueueSl.readFront_cons_sl (h : T) (t : List T) (x : T) :
    QueueType.readFront_ (⟨⟨h :: t⟩⟩ : TQueueSl T) x = some (true, h, ⟨⟨h :: t⟩⟩) := rfl

theorem TQueueSl.get_nil_sl (x : T) :
    QueueType.get_ (⟨⟨[]⟩⟩ : TQueueSl T) x = some (false, x, ⟨⟨[]⟩⟩) := rfl

theorem TQueueSl.get_cons_sl (h : T) (t : List T) (x : T) :
    QueueType.get_ (⟨⟨h :: t⟩⟩ : TQueueSl T) x = some (true, h, ⟨⟨t⟩⟩) := rfl

theorem TQueueQt.empty_qt (xs : List T) :
    QueueType.empty_ (⟨⟨xs⟩⟩ : TQueueQt T) = xs.isEmpty := rfl

theorem TQueueQt.size_qt (xs : List T) :
    QueueType.size_ (⟨⟨xs⟩⟩ : TQueueQt T) = (xs.length : Int) := rfl

theorem TQueueQt.put_qt (xs : List T) (v : T) :
    QueueType.put_ (⟨⟨xs⟩⟩ : TQueueQt T) v = ⟨⟨xs ++ [v]⟩⟩ := rfl

theorem TQueueQt.pop_qt (h : T) (t : List T) :
    QueueType.pop_ (⟨⟨h :: t⟩⟩ : TQueueQt T) = some ⟨⟨t⟩⟩ := rfl

theorem TQueueQt.readFront_nil_qt (x : T) :
    QueueType.readFront_ (⟨⟨[]⟩⟩ : TQueueQt T) x = some (false, x, ⟨⟨[]⟩⟩) := rfl

theorem TQueueQt.readFront_cons_qt (h : T) (t : List T) (x : T) :
    QueueType.readFront_ (⟨⟨h :: t⟩⟩ : TQueueQt T) x = some (true, h, ⟨⟨h :: t⟩⟩) := rfl

theorem TQueueQt.get_nil_qt (x : T) :
    QueueType.get_ (⟨⟨[]⟩⟩ : TQueueQt T) x = some (false, x, ⟨⟨[]⟩⟩) := rfl

theorem TQueueQt.get_cons_qt (h : T) (t : List T) (x : T) :
    QueueType.get_ (⟨⟨h :: t⟩⟩ : TQueueQt T) x = some (true, h, ⟨⟨t⟩⟩) := rfl

end primitives

/-! ## The public operations under an available guard -/

namespace TQueue

variable {T : Type} {Q : Type → Type} {G : Type} [QueueType Q] [GuardType G]

theorem empty_eq_of_available {g : G} (hg : GuardType.Available g) (b : Q T) :
    TQueue.empty (⟨b, g⟩ : TQueue T Q G) = some (QueueType.empty_ b, ⟨b, g⟩) := by
  obtain ⟨⟨g1, h1, h2⟩, _⟩ := hg
  simp [TQueue.empty, h1, h2]

theorem size_eq_of_available {g : G} (hg : GuardType.Available g) (b : Q T) :
    TQueue.size (⟨b, g⟩ : TQueue T Q G) = some (QueueType.size_ b, ⟨b, g⟩) := by
  obtain ⟨⟨g1, h1, h2⟩, _⟩ := hg
  simp [TQueue.size, h1, h2]

theorem put_eq_of_available {g : G} (hg : GuardType.Available g) (b : Q T) (v : T) :
    TQueue.put (⟨b, g⟩ : TQueue T Q G) v = some ⟨QueueType.put_ b v, g⟩ := by
  obtain ⟨_, ⟨g1, h1, h2⟩⟩ := hg
  simp [TQueue.put, h1, h2]

theorem pop_eq_of_available {g : G} (hg : GuardType.Available g) (b : Q T) :
    TQueue.pop (⟨b, g⟩ : TQueue T Q G) = (QueueType.pop_ b).map (fun b1 => ⟨b1, g⟩) := by
  obtain ⟨_, ⟨g1, h1, h2⟩⟩ := hg
  cases hb : QueueType.pop_ b <;> simp [TQueue.pop, h1, h2, hb]

theorem readFront_eq_of_available {g : G} (hg : GuardType.Available g) (b : Q T) (x : T) :
    TQueue.readFront (⟨b, g⟩ : TQueue T Q G) x
      = (QueueType.readFront_ b x).map (fun r => (r.1, r.2.1, ⟨r.2.2, g⟩)) := by
  obtain ⟨⟨g1, h1, h2⟩, _⟩ := hg
  cases hb : QueueType.readFront_ b x <;> simp [TQueue.readFront, h1, h2, hb]

theorem get_eq_of_available {g : G} (hg : GuardType.Available g) (b : Q T) (x : T) :
    TQueue.get (⟨b, g⟩ : TQueue T Q G) x
      = (QueueType.get_ b x).map (fun r => (r.1, r.2.1, ⟨r.2.2, g⟩)) := by
  obtain ⟨_, ⟨g1, h1, h2⟩⟩ := hg
  cases hb : QueueType.get_ b x <;> simp [TQueue.get, h1, h2, hb]

end TQueue

/-! ## Lemmas on sequences of calls -/

namespace TQueue

variable {T : Type} {Q : Type → Type} {G : Type} [QueueType Q] [GuardType G]

theorem run_append (q : TQueue T Q G) (x : T) (cs ds : List (Call T)) :
    q.run x (cs ++ ds) = (q.run x cs).bind (fun r =>
      (r.2.2.run r.2.1 ds).map (fun s => (r.1 ++ s.1, s.2.1, s.2.2))) := by
  induction cs generalizing q x with
  | nil =>
    cases h : q.run x ds <;> simp [run, h]
  | cons c cs ih =>
    cases hc : q.call x c with
    | none => simp [run, hc]
    | some r =>
      obtain ⟨r1, x1, q1⟩ := r
      cases h1 : q1.run x1 cs with
      | none => simp [run, hc, ih, h1]
      | some s =>
        obtain ⟨rs, x2, q2⟩ := s
        cases h2 : q2.run x2 ds <;> simp [run, hc, ih, h1, h2]

theorem call_guard {g : G} (hg : GuardType.Available g) (b : Q T) (x : T) (c : Call T)
    {r : Result (QueueType.SizeType_ Q) T} {x1 : T} {q1 : TQueue T Q G}
    (h : TQueue.call (⟨b, g⟩ : TQueue T Q G) x c = some (r, x1, q1)) : q1.guard = g := by
  cases c with
  | empty =>
    simp [call, empty_eq_of_available hg] at h
    rw [← h.2.2]
  | size =>
    simp [call, size_eq_of_available hg] at h
    rw [← h.2.2]
  | put v =>
    simp [call, put_eq_of_available hg] at h
    rw [← h.2.2]
  | pop =>
    cases hb : QueueType.pop_ b with
    | none => simp [call, pop_eq_of_available hg, hb] at h
    | some b1 =>
      simp [call, pop_eq_of_available hg, hb] at h
      rw [← h.2.2]
  | readFront =>
    cases hb : QueueType.readFront_ b x with
    | none => simp [call, readFront_eq_of_available hg, hb] at h
    | some b1 =>
      simp [call, readFront_eq_of_available hg, hb] at h
      rw [← h.2.2]
  | get =>
    cases hb : QueueType.get_ b x with
    | none => simp [call, get_eq_of_available hg, hb] at h
    | some b1 =>
      simp [call, get_eq_of_available hg, hb] at h
      rw [← h.2.2]

theorem run_guard {g : G} (hg : GuardType.Available g) (cs : List (Call T)) (b : Q T) (x : T)
    {rs : List (Result (QueueType.SizeType_ Q) T)} {x1 : T} {q1 : TQueue T Q G}
    (h : TQueue.run (⟨b, g⟩ : TQueue T Q G) x cs = some (rs, x1, q1)) : q1.guard = g := by
  induction cs generalizing b x rs x1 q1 with
  | nil =>
    simp [run] at h
    rw [← h.2.2]
  | cons c cs ih =>
    cases hc : TQueue.call (⟨b, g⟩ : TQueue T Q G) x c with
    | none => simp [run, hc] at h
    | some r =>
      obtain ⟨r1, x2, q2⟩ := r
      have hq2 : q2.guard = g := call_guard hg b x c hc
      obtain ⟨b2, g2⟩ := q2
      simp only at hq2
      subst hq2
      cases hr : TQueue.run (⟨b2, g2⟩ : TQueue T Q G) x2 cs with
      | none => simp [run, hc, hr] at h
      | some s =>
        obtain ⟨rs2, x3, q3⟩ := s
        simp [run, hc, hr] at h
        obtain ⟨_, _, rfl⟩ := h
        exact ih b2 x2 hr

section fifo

variable {ofList : {T : Type} → List T → Q T} (hQ : QueueType.IsFifo Q ofList)
variable {g : G} (hg : GuardType.Available g)

include hQ hg

theorem call_put (xs : List T) (x v : T) :
    TQueue.call (⟨ofList xs, g⟩ : TQueue T Q G) x (.put v)
      = some (.put, x, ⟨ofList (xs ++ [v]), g⟩) := by
  simp [call, put_eq_of_available hg, hQ.put_eq]

theorem call_get_nil (x : T) :
    TQueue.call (⟨ofList [], g⟩ : TQueue T Q G) x .get
      = some (.get false x, x, ⟨ofList [], g⟩) := by
  simp [call, get_eq_of_available hg, hQ.get_nil]

theorem call_get_cons (h : T) (t : List T) (x : T) :
    TQueue.call (⟨ofList (h :: t), g⟩ : TQueue T Q G) x .get
      = some (.get true h, h, ⟨ofList t, g⟩) := by
  simp [call, get_eq_of_available hg, hQ.get_cons]

theorem call_readFront_nil (x : T) :
    TQueue.call (⟨ofList [], g⟩ : TQueue T Q G) x .readFront
      = some (.readFront false x, x, ⟨ofList [], g⟩) := by
  simp [call, readFront_eq_of_available hg, hQ.readFront_nil]

theorem call_readFront_cons (h : T) (t : List T) (x : T) :
    TQueue.call (⟨ofList (h :: t), g⟩ : TQueue T Q G) x .readFront
      = some (.readFront true h, h, ⟨ofList (h :: t), g⟩) := by
  simp [call, readFront_eq_of_available hg, hQ.readFront_cons]

theorem run_puts (vs xs : List T) (x : T) :
    TQueue.run (⟨ofList xs, g⟩ : TQueue T Q G) x (vs.map Call.put)
      = some (List.replicate vs.length Result.put, x, ⟨ofList (xs ++ vs), g⟩) := by
  induction vs generalizing xs with
  | nil => simp [run]
  | cons v vs ih =>
    simp [run, call_put hQ hg, ih, List.replicate_succ]

theorem run_gets (vs rest : List T) (x : T) :
    TQueue.run (⟨ofList (vs ++ rest), g⟩ : TQueue T Q G) x (List.replicate vs.length Call.get)
      = some (vs.map (Result.get true), vs.getLastD x, ⟨ofList rest, g⟩) := by
  induction vs generalizing x with
  | nil => simp [run]
  | cons v vs ih =>
    have e : (v :: vs).getLastD x = vs.getLastD v := List.getLastD_cons x v vs
    rw [e]
    simp [run, call_get_cons hQ hg, ih, List.replicate_succ]

end fifo

end TQueue

namespace TQueue

variable {T : Type} {Q : Type → Type} {G : Type} [QueueType Q] [GuardType G]

theorem run_order {ofList : {T : Type} → List T → Q T} (hQ : QueueType.IsFifo Q ofList)
    {g : G} (hg : GuardType.Available g) (calls : List (Call T))
    (hc : ∀ c ∈ calls, c.isPutGetReadFront = true) (xs : List T) (x : T) :
    ∃ rs x1 ys, TQueue.run (⟨ofList xs, g⟩ : TQueue T Q G) x calls
        = some (rs, x1, ⟨ofList ys, g⟩)
      ∧ Result.gotten rs ++ ys = xs ++ Call.putValues calls := by
  induction calls generalizing xs x with
  | nil => exact ⟨[], x, xs, rfl, by simp [Result.gotten, Call.putValues]⟩
  | cons c cs ih =>
    have hcs : ∀ c ∈ cs, c.isPutGetReadFront = true :=
      fun d hd => hc d (List.mem_cons_of_mem c hd)
    have hc0 : c.isPutGetReadFront = true := hc c (List.mem_cons_self c cs)
    cases c with
    | empty => simp [Call.isPutGetReadFront] at hc0
    | size => simp [Call.isPutGetReadFront] at hc0
    | pop => simp [Call.isPutGetReadFront] at hc0
    | put v =>
      obtain ⟨rs, x1, ys, hr, he⟩ := ih hcs (xs ++ [v]) x
      exact ⟨Result.put :: rs, x1, ys, by simp [run, call_put hQ hg, hr],
        by simp [Result.gotten, Call.putValues, he]⟩
    | readFront =>
      cases xs with
      | nil =>
        obtain ⟨rs, x1, ys, hr, he⟩ := ih hcs [] x
        exact ⟨Result.readFront false x :: rs, x1, ys,
          by simp [run, call_readFront_nil hQ hg, hr],
          by simp [Result.gotten, Call.putValues, he]⟩
      | cons h t =>
        obtain ⟨rs, x1, ys, hr, he⟩ := ih hcs (h :: t) h
        exact ⟨Result.readFront true h :: rs, x1, ys,
          by simp [run, call_readFront_cons hQ hg, hr],
          by simp [Result.gotten, Call.putValues, he]⟩
    | get =>
      cases xs with
      | nil =>
        obtain ⟨rs, x1, ys, hr, he⟩ := ih hcs [] x
        exact ⟨Result.get false x :: rs, x1, ys,
          by simp [run, call_get_nil hQ hg, hr],
          by simp [Result.gotten, Call.putValues, he]⟩
      | cons h t =>
        obtain ⟨rs, x1, ys, hr, he⟩ := ih hcs t h
        exact ⟨Result.get true h :: rs, x1, ys,
          by simp [run, call_get_cons hQ hg, hr],
          by simp [Result.gotten, Call.putValues, he]⟩

theorem run_fifo {ofList : {T : Type} → List T → Q T} (hQ : QueueType.IsFifo Q ofList)
    {g : G} (hg : GuardType.Available g) (vs : List T) (x : T) :
    TQueue.run (⟨ofList [], g⟩ : TQueue T Q G) x
        (vs.map Call.put ++ List.replicate vs.length Call.get ++ [Call.get])
      = some (List.replicate vs.length Result.put ++ vs.map (Result.get true)
                ++ [Result.get false (vs.getLastD x)], vs.getLastD x, ⟨ofList [], g⟩) := by
  have h1 := run_puts hQ hg vs [] x
  have h2 := run_gets hQ hg vs [] x
  simp only [List.nil_append, List.append_nil] at h1 h2
  rw [run_append, run_append, h1]
  simp [h2, run, call_get_nil hQ hg]

end TQueue

namespace TQueue

variable {T : Type} {Q : Type → Type} {G : Type} [QueueType Q] [GuardType G]

theorem run_readFronts {ofList : {T : Type} → List T → Q T} (hQ : QueueType.IsFifo Q ofList)
    {g : G} (hg : GuardType.Available g) (xs : List T) (x : T) (n : Nat) :
    TQueue.run (⟨ofList xs, g⟩ : TQueue T Q G) x (List.replicate (n + 1) Call.readFront)
      = some (List.replicate (n + 1) (Result.readFront (!xs.isEmpty) (xs.headD x)),
          xs.headD x, ⟨ofList xs, g⟩) := by
  induction n generalizing x with
  | zero =>
    cases xs with
    | nil => simp [run, call_readFront_nil hQ hg]
    | cons h t => simp [run, call_readFront_cons hQ hg]
  | succ n ih =>
    rw [List.replicate_succ, run]
    cases xs with
    | nil =>
      rw [call_readFront_nil hQ hg]
      have h := ih x
      simp only [List.headD_nil, List.isEmpty_nil, Bool.not_true, List.replicate_succ] at h ⊢
      simp [h]
    | cons a t =>
      rw [call_readFront_cons hQ hg]
      have h := ih a
      simp only [List.headD_cons, List.isEmpty_cons, Bool.not_false, List.replicate_succ] at h ⊢
      simp [h]

end TQueue

/-! ## The claims -/

/-- C1 (FIFO ordering). On a freshly constructed queue, with either storage
policy and any guard policy whose fresh guard is available: after `put` is
called once per element of `vs` in order, the next `vs.length` calls of `get`
return true and yield the elements of `vs` in the same order, and the
following `get` returns false (leaving `x` as it was). -/
theorem TQueue.fifo_ordering {T : Type} {G : Type} [GuardType G]
    (hg : GuardType.Available (GuardType.ctor : G)) (vs : List T) (x : T) :
    (TQueue.ctor : TQueue T TQueueSl G).run x
        (vs.map Call.put ++ List.replicate vs.length Call.get ++ [Call.get])
      = some (List.replicate vs.length Result.put ++ vs.map (Result.get true)
                ++ [Result.get false (vs.getLastD x)], vs.getLastD x, TQueue.ctor)
    ∧ (TQueue.ctor : TQueue T TQueueQt G).run x
        (vs.map Call.put ++ List.replicate vs.length Call.get ++ [Call.get])
      = some (List.replicate vs.length Result.put ++ vs.map (Result.get true)
                ++ [Result.get false (vs.getLastD x)], vs.getLastD x, TQueue.ctor) :=
  ⟨TQueue.run_fifo TQueueSl.isFifo_sl hg vs x, TQueue.run_fifo TQueueQt.isFifo_qt hg vs x⟩

/-- Witness of C1: the values 1, 2, 3 through a queue under the read-write
lock guard. -/
theorem TQueue.fifo_ordering_witness :
    GuardType.Available (GuardType.ctor : TQtReadWriteLockGuard)
    ∧ (TQueue.ctor : TQueue Nat TQueueSl TQtReadWriteLockGuard).run 0
        [.put 1, .put 2, .put 3, .get, .get, .get, .get]
      = some ([.put, .put, .put, .get true 1, .get true 2, .get true 3, .get false 3],
          3, TQueue.ctor)
    ∧ (TQueue.ctor : TQueue Nat TQueueQt TQtReadWriteLockGuard).run 0
        [.put 1, .put 2, .put 3, .get, .get, .get, .get]
      = some ([.put, .put, .put, .get true 1, .get true 2, .get true 3, .get false 3],
          3, TQueue.ctor) :=
  ⟨TQtReadWriteLockGuard.available_ctor,
    TQueue.fifo_ordering TQtReadWriteLockGuard.available_ctor [1, 2, 3] 0⟩

/-- C2 (order preservation under interleaving). For every finite sequence of
`put`, `get` and `readFront` calls on a freshly constructed queue (either
storage policy, any guard policy whose fresh guard is available), every call
returns, and the values yielded by the successful `get` calls, in call order,
followed by the contents of the queue at the end, head to tail, are exactly
the values passed to `put`, in call order. -/
theorem TQueue.order_preserved {T : Type} {G : Type} [GuardType G]
    (hg : GuardType.Available (GuardType.ctor : G)) (calls : List (Call T))
    (hc : ∀ c ∈ calls, c.isPutGetReadFront = true) (x : T) :
    (∃ rs x1 q1, (TQueue.ctor : TQueue T TQueueSl G).run x calls = some (rs, x1, q1)
        ∧ Result.gotten rs ++ q1.queue.mQueue.c = Call.putValues calls)
    ∧ (∃ rs x1 q1, (TQueue.ctor : TQueue T TQueueQt G).run x calls = some (rs, x1, q1)
        ∧ Result.gotten rs ++ q1.queue.mQueue.items = Call.putValues calls) := by
  constructor
  · obtain ⟨rs, x1, ys, hr, he⟩ := TQueue.run_order TQueueSl.isFifo_sl hg calls hc [] x
    exact ⟨rs, x1, _, hr, by simpa using he⟩
  · obtain ⟨rs, x1, ys, hr, he⟩ := TQueue.run_order TQueueQt.isFifo_qt hg calls hc [] x
    exact ⟨rs, x1, _, hr, by simpa using he⟩

/-- Witness of C2: an interleaving of puts, gets and reads under the mutex
guard. -/
theorem TQueue.order_preserved_witness :
    GuardType.Available (GuardType.ctor : TQtMutexGuard)
    ∧ (∀ c ∈ [Call.put 1, .get, .get, .put 2, .put 3, .readFront, .get, .put 4],
        c.isPutGetReadFront = true)
    ∧ (∃ rs x1 q1, (TQueue.ctor : TQueue Nat TQueueSl TQtMutexGuard).run 0
          [.put 1, .get, .get, .put 2, .put 3, .readFront, .get, .put 4] = some (rs, x1, q1)
        ∧ Result.gotten rs ++ q1.queue.mQueue.c = [1, 2, 3, 4])
    ∧ (∃ rs x1 q1, (TQueue.ctor : TQueue Nat TQueueQt TQtMutexGuard).run 0
          [.put 1, .get, .get, .put 2, .put 3, .readFront, .get, .put 4] = some (rs, x1, q1)
        ∧ Result.gotten rs ++ q1.queue.mQueue.items = [1, 2, 3, 4]) :=
  ⟨TQtMutexGuard.available_qtMutex _, by decide,
    TQueue.order_preserved (TQtMutexGuard.available_qtMutex _)
      [.put 1, .get, .get, .put 2, .put 3, .readFront, .get, .put 4] (by decide) 0⟩

/-- C3 (size/emptiness consistency). In every queue state reached from a
freshly constructed queue by a sequence of calls of `empty`, `size`, `put`,
`pop`, `readFront` and `get`, for both storage policies: `empty()` and
`size()` return, and `empty()` returns true if and only if `size()` returns
0. -/
theorem TQueue.empty_iff_size_zero {T : Type} {G : Type} [GuardType G]
    (hg : GuardType.Available (GuardType.ctor : G)) (calls : List (Call T)) (x : T) :
    (∀ rs x1 (q1 : TQueue T TQueueSl G), TQueue.ctor.run x calls = some (rs, x1, q1) →
      ∃ (e : Bool) (n : Nat), q1.empty = some (e, q1) ∧ q1.size = some (n, q1)
        ∧ (e = true ↔ n = 0))
    ∧ (∀ rs x1 (q1 : TQueue T TQueueQt G), TQueue.ctor.run x calls = some (rs, x1, q1) →
      ∃ (e : Bool) (n : Int), q1.empty = some (e, q1) ∧ q1.size = some (n, q1)
        ∧ (e = true ↔ n = 0)) := by
  constructor
  · intro rs x1 q1 h
    have hq : q1.guard = GuardType.ctor := TQueue.run_guard hg calls _ x h
    obtain ⟨b, g⟩ := q1
    simp only at hq
    subst hq
    refine ⟨TQueueSl.empty_ b, TQueueSl.size_ b, TQueue.empty_eq_of_available hg b,
      TQueue.size_eq_of_available hg b, ?_⟩
    simp [TQueueSl.empty_, TQueueSl.size_, StdQueue.empty, StdQueue.size]
  · intro rs x1 q1 h
    have hq : q1.guard = GuardType.ctor := TQueue.run_guard hg calls _ x h
    obtain ⟨b, g⟩ := q1
    simp only at hq
    subst hq
    refine ⟨TQueueQt.empty_ b, TQueueQt.size_ b, TQueue.empty_eq_of_available hg b,
      TQueue.size_eq_of_available hg b, ?_⟩
    simp [TQueueQt.empty_, TQueueQt.size_, QQueue.isEmpty, QQueue.count]

/-- Witness of C3: a state reached through all six operations under the
critical-section guard. -/
theorem TQueue.empty_iff_size_zero_witness :
    GuardType.Available (GuardType.ctor : TWinCsGuard)
    ∧ (TQueue.ctor : TQueue Nat TQueueSl TWinCsGuard).run 0
        [.put 1, .put 2, .size, .pop, .empty, .readFront, .get, .put 3]
      = some ([.put, .put, .size (2 : Nat), .pop, .empty false, .readFront true 2, .get true 2, .put],
          2, ⟨⟨⟨[3]⟩⟩, GuardType.ctor⟩)
    ∧ (∃ (e : Bool) (n : Nat),
        (⟨⟨⟨[3]⟩⟩, GuardType.ctor⟩ : TQueue Nat TQueueSl TWinCsGuard).empty
          = some (e, ⟨⟨⟨[3]⟩⟩, GuardType.ctor⟩)
        ∧ (⟨⟨⟨[3]⟩⟩, GuardType.ctor⟩ : TQueue Nat TQueueSl TWinCsGuard).size
          = some (n, ⟨⟨⟨[3]⟩⟩, GuardType.ctor⟩)
        ∧ (e = true ↔ n = 0))
    ∧ (TQueue.ctor : TQueue Nat TQueueQt TWinCsGuard).run 0 [.put 1, .get]
      = some ([.put, .get true 1], 1, TQueue.ctor)
    ∧ (∃ (e : Bool) (n : Int),
        (TQueue.ctor : TQueue Nat TQueueQt TWinCsGuard).empty = some (e, TQueue.ctor)
        ∧ (TQueue.ctor : TQueue Nat TQueueQt TWinCsGuard).size = some (n, TQueue.ctor)
        ∧ (e = true ↔ n = 0)) :=
  ⟨TWinCsGuard.available_winCs _, rfl,
    (TQueue.empty_iff_size_zero (TWinCsGuard.available_winCs _)
      [.put 1, .put 2, .size, .pop, .empty, .readFront, .get, .put 3] 0).1 _ _ _ rfl,
    rfl,
    (TQueue.empty_iff_size_zero (TWinCsGuard.available_winCs _) [.put 1, .get] 0).2 _ _ _ rfl⟩

/-- C4 (empty-queue query contract). On a freshly constructed queue `empty()`
is true and `size()` is 0; and on every empty queue, for every prior value of
`x`, `get(x)` returns false and `readFront(x)` returns false, each leaving `x`
at its prior value and the queue empty. Both storage policies; `hc` and `hg`
say that the guard can be locked and released. -/
theorem TQueue.empty_queue_queries {T : Type} {G : Type} [GuardType G]
    (hc : GuardType.Available (GuardType.ctor : G)) (g : G) (hg : GuardType.Available g)
    (x : T) :
    ((TQueue.ctor : TQueue T TQueueSl G).empty = some (true, TQueue.ctor)
      ∧ (TQueue.ctor : TQueue T TQueueSl G).size = some ((0 : Nat), TQueue.ctor)
      ∧ (⟨⟨⟨[]⟩⟩, g⟩ : TQueue T TQueueSl G).get x = some (false, x, ⟨⟨⟨[]⟩⟩, g⟩)
      ∧ (⟨⟨⟨[]⟩⟩, g⟩ : TQueue T TQueueSl G).readFront x = some (false, x, ⟨⟨⟨[]⟩⟩, g⟩))
    ∧ ((TQueue.ctor : TQueue T TQueueQt G).empty = some (true, TQueue.ctor)
      ∧ (TQueue.ctor : TQueue T TQueueQt G).size = some ((0 : Int), TQueue.ctor)
      ∧ (⟨⟨⟨[]⟩⟩, g⟩ : TQueue T TQueueQt G).get x = some (false, x, ⟨⟨⟨[]⟩⟩, g⟩)
      ∧ (⟨⟨⟨[]⟩⟩, g⟩ : TQueue T TQueueQt G).readFront x = some (false, x, ⟨⟨⟨[]⟩⟩, g⟩)) := by
  refine ⟨⟨?_, ?_, ?_, ?_⟩, ⟨?_, ?_, ?_, ?_⟩⟩
  · exact TQueue.empty_eq_of_available hc _
  · exact TQueue.size_eq_of_available hc _
  · rw [TQueue.get_eq_of_available hg]; rfl
  · rw [TQueue.readFront_eq_of_available hg]; rfl
  · exact TQueue.empty_eq_of_available hc _
  · exact TQueue.size_eq_of_available hc _
  · rw [TQueue.get_eq_of_available hg]; rfl
  · rw [TQueue.readFront_eq_of_available hg]; rfl

/-- Witness of C4: the fresh queue under the read-write lock guard, prior
value 7 of `x`. -/
theorem TQueue.empty_queue_queries_witness :
    GuardType.Available (GuardType.ctor : TQtReadWriteLockGuard)
    ∧ (TQueue.ctor : TQueue Nat TQueueSl TQtReadWriteLockGuard).get 7
        = some (false, 7, TQueue.ctor)
    ∧ (TQueue.ctor : TQueue Nat TQueueQt TQtReadWriteLockGuard).readFront 7
        = some (false, 7, TQueue.ctor) :=
  ⟨TQtReadWriteLockGuard.available_ctor,
    (TQueue.empty_queue_queries TQtReadWriteLockGuard.available_ctor GuardType.ctor
      TQtReadWriteLockGuard.available_ctor 7).1.2.2.1,
    (TQueue.empty_queue_queries TQtReadWriteLockGuard.available_ctor GuardType.ctor
      TQtReadWriteLockGuard.available_ctor 7).2.2.2.2⟩

/-- C5 (get on a non-empty queue). For every queue whose contents are `h`
followed by the list `t`, `get(x)` returns true, sets `x` to `h` and leaves
the queue with contents exactly `t`; `size()` is `t.length + 1` before and
`t.length` after. Both storage policies. -/
theorem TQueue.get_nonempty {T : Type} {G : Type} [GuardType G]
    (g : G) (hg : GuardType.Available g) (h : T) (t : List T) (x : T) :
    ((⟨⟨⟨h :: t⟩⟩, g⟩ : TQueue T TQueueSl G).get x = some (true, h, ⟨⟨⟨t⟩⟩, g⟩)
      ∧ (⟨⟨⟨h :: t⟩⟩, g⟩ : TQueue T TQueueSl G).size
          = some ((t.length + 1 : Nat), ⟨⟨⟨h :: t⟩⟩, g⟩)
      ∧ (⟨⟨⟨t⟩⟩, g⟩ : TQueue T TQueueSl G).size = some ((t.length : Nat), ⟨⟨⟨t⟩⟩, g⟩))
    ∧ ((⟨⟨⟨h :: t⟩⟩, g⟩ : TQueue T TQueueQt G).get x = some (true, h, ⟨⟨⟨t⟩⟩, g⟩)
      ∧ (⟨⟨⟨h :: t⟩⟩, g⟩ : TQueue T TQueueQt G).size
          = some ((t.length + 1 : Int), ⟨⟨⟨h :: t⟩⟩, g⟩)
      ∧ (⟨⟨⟨t⟩⟩, g⟩ : TQueue T TQueueQt G).size = some ((t.length : Int), ⟨⟨⟨t⟩⟩, g⟩)) := by
  refine ⟨⟨?_, ?_, ?_⟩, ⟨?_, ?_, ?_⟩⟩
  · rw [TQueue.get_eq_of_available hg]; rfl
  · exact TQueue.size_eq_of_available hg _
  · exact TQueue.size_eq_of_available hg _
  · rw [TQueue.get_eq_of_available hg]; rfl
  · rw [TQueue.size_eq_of_available hg]; rfl
  · exact TQueue.size_eq_of_available hg _

/-- Witness of C5: `get` on the queue holding 5, 6, 7. -/
theorem TQueue.get_nonempty_witness :
    GuardType.Available (GuardType.ctor : TNoGuard)
    ∧ (⟨⟨⟨[5, 6, 7]⟩⟩, GuardType.ctor⟩ : TQueue Nat TQueueSl TNoGuard).get 0
        = some (true, 5, ⟨⟨⟨[6, 7]⟩⟩, GuardType.ctor⟩)
    ∧ (⟨⟨⟨[5, 6, 7]⟩⟩, GuardType.ctor⟩ : TQueue Nat TQueueQt TNoGuard).get 0
        = some (true, 5, ⟨⟨⟨[6, 7]⟩⟩, GuardType.ctor⟩) :=
  ⟨TNoGuard.available_noGuard _,
    (TQueue.get_nonempty GuardType.ctor (TNoGuard.available_noGuard _) 5 [6, 7] 0).1.1,
    (TQueue.get_nonempty GuardType.ctor (TNoGuard.available_noGuard _) 5 [6, 7] 0).2.1⟩

/-- C6 (non-destructive read). For every queue state and every `n >= 1`,
`n` calls of `readFront(x)` in a row leave the queue exactly as it was, and
all `n` calls return the same boolean (true exactly when the queue holds an
element) and the same value of `x`: the head element, or the prior `x` when
the queue is empty. Both storage policies. -/
theorem TQueue.readFront_repeat {T : Type} {G : Type} [GuardType G]
    (g : G) (hg : GuardType.Available g) (xs : List T) (x : T) (n : Nat) (hn : 1 ≤ n) :
    (⟨⟨⟨xs⟩⟩, g⟩ : TQueue T TQueueSl G).run x (List.replicate n Call.readFront)
      = some (List.replicate n (Result.readFront (!xs.isEmpty) (xs.headD x)),
          xs.headD x, ⟨⟨⟨xs⟩⟩, g⟩)
    ∧ (⟨⟨⟨xs⟩⟩, g⟩ : TQueue T TQueueQt G).run x (List.replicate n Call.readFront)
      = some (List.replicate n (Result.readFront (!xs.isEmpty) (xs.headD x)),
          xs.headD x, ⟨⟨⟨xs⟩⟩, g⟩) := by
  obtain ⟨m, rfl⟩ : ∃ m, n = m + 1 := ⟨n - 1, by omega⟩
  exact ⟨TQueue.run_readFronts TQueueSl.isFifo_sl hg xs x m,
    TQueue.run_readFronts TQueueQt.isFifo_qt hg xs x m⟩

/-- Witness of C6: three reads of the queue holding 4, 5. -/
theorem TQueue.readFront_repeat_witness :
    GuardType.Available (GuardType.ctor : TQtReadWriteLockGuard)
    ∧ 1 ≤ 3
    ∧ (⟨⟨⟨[4, 5]⟩⟩, GuardType.ctor⟩ : TQueue Nat TQueueSl TQtReadWriteLockGuard).run 0
        [.readFront, .readFront, .readFront]
      = some ([.readFront true 4, .readFront true 4, .readFront true 4], 4,
          ⟨⟨⟨[4, 5]⟩⟩, GuardType.ctor⟩)
    ∧ (⟨⟨⟨[4, 5]⟩⟩, GuardType.ctor⟩ : TQueue Nat TQueueQt TQtReadWriteLockGuard).run 0
        [.readFront, .readFront, .readFront]
      = some ([.readFront true 4, .readFront true 4, .readFront true 4], 4,
          ⟨⟨⟨[4, 5]⟩⟩, GuardType.ctor⟩) :=
  ⟨TQtReadWriteLockGuard.available_ctor, by decide,
    TQueue.readFront_repeat GuardType.ctor TQtReadWriteLockGuard.available_ctor [4, 5] 0 3
      (by decide)⟩

/-- C7 as stated fails: on the queue holding 1 (the fresh queue after
`put(1)`), `put(2)` immediately followed by `get(x)` returns true with
`x == 1`, not `x == 2`. -/
theorem TQueue.put_get_value_counterexample :
    (TQueue.ctor : TQueue Nat TQueueSl TNoGuard).run 0 [.put 1]
        = some ([.put], 0, ⟨⟨⟨[1]⟩⟩, ⟨⟩⟩)
    ∧ (⟨⟨⟨[1]⟩⟩, ⟨⟩⟩ : TQueue Nat TQueueSl TNoGuard).run 0 [.put 2, .get]
        = some ([.put, .get true 1], 1, ⟨⟨⟨[2]⟩⟩, ⟨⟩⟩)
    ∧ ¬ ∃ q2, (⟨⟨⟨[1]⟩⟩, ⟨⟩⟩ : TQueue Nat TQueueSl TNoGuard).run 0 [.put 2, .get]
        = some ([.put, .get true 2], 2, q2) := by
  refine ⟨rfl, rfl, ?_⟩
  rintro ⟨q2, h⟩
  have e : (⟨⟨⟨[1]⟩⟩, ⟨⟩⟩ : TQueue Nat TQueueSl TNoGuard).run 0 [.put 2, .get]
      = some ([.put, .get true 1], 1, ⟨⟨⟨[2]⟩⟩, ⟨⟩⟩) := rfl
  rw [e] at h
  simp at h

/-- C7, amended (round-trip value). For every queue state and every value
`v`, `put(v)` immediately followed by `get(x)` returns true; `x == v` when the
queue was empty before the `put`, and otherwise `x` is the element that was at
the head before the `put`, `v` staying in the queue at the tail. Both storage
policies. -/
theorem TQueue.put_get_value {T : Type} {G : Type} [GuardType G]
    (g : G) (hg : GuardType.Available g) (v x : T) :
    ((⟨⟨⟨[]⟩⟩, g⟩ : TQueue T TQueueSl G).run x [.put v, .get]
        = some ([.put, .get true v], v, ⟨⟨⟨[]⟩⟩, g⟩)
      ∧ ∀ (h : T) (t : List T), (⟨⟨⟨h :: t⟩⟩, g⟩ : TQueue T TQueueSl G).run x [.put v, .get]
        = some ([.put, .get true h], h, ⟨⟨⟨t ++ [v]⟩⟩, g⟩))
    ∧ ((⟨⟨⟨[]⟩⟩, g⟩ : TQueue T TQueueQt G).run x [.put v, .get]
        = some ([.put, .get true v], v, ⟨⟨⟨[]⟩⟩, g⟩)
      ∧ ∀ (h : T) (t : List T), (⟨⟨⟨h :: t⟩⟩, g⟩ : TQueue T TQueueQt G).run x [.put v, .get]
        = some ([.put, .get true h], h, ⟨⟨⟨t ++ [v]⟩⟩, g⟩)) := by
  refine ⟨⟨?_, fun h t => ?_⟩, ⟨?_, fun h t => ?_⟩⟩
  · simp [TQueue.run, TQueue.call, TQueue.put_eq_of_available hg,
      TQueue.get_eq_of_available hg, TQueueSl.put_sl, TQueueSl.get_cons_sl]
  · simp [TQueue.run, TQueue.call, TQueue.put_eq_of_available hg,
      TQueue.get_eq_of_available hg, TQueueSl.put_sl, TQueueSl.get_cons_sl]
  · simp [TQueue.run, TQueue.call, TQueue.put_eq_of_available hg,
      TQueue.get_eq_of_available hg, TQueueQt.put_qt, TQueueQt.get_cons_qt]
  · simp [TQueue.run, TQueue.call, TQueue.put_eq_of_available hg,
      TQueue.get_eq_of_available hg, TQueueQt.put_qt, TQueueQt.get_cons_qt]

/-- Witness of C7, amended: `put(9); get(x)` on the empty queue and on the
queue holding 1, 2. -/
theorem TQueue.put_get_value_witness :
    GuardType.Available (GuardType.ctor : TQtReadWriteLockGuard)
    ∧ (TQueue.ctor : TQueue Nat TQueueSl TQtReadWriteLockGuard).run 0 [.put 9, .get]
        = some ([.put, .get true 9], 9, TQueue.ctor)
    ∧ (⟨⟨⟨[1, 2]⟩⟩, GuardType.ctor⟩ : TQueue Nat TQueueQt TQtReadWriteLockGuard).run 0
        [.put 9, .get]
        = some ([.put, .get true 1], 1, ⟨⟨⟨[2, 9]⟩⟩, GuardType.ctor⟩) :=
  ⟨TQtReadWriteLockGuard.available_ctor,
    (TQueue.put_get_value GuardType.ctor TQtReadWriteLockGuard.available_ctor 9 0).1.1,
    (TQueue.put_get_value GuardType.ctor TQtReadWriteLockGuard.available_ctor 9 0).2.2 1 [2]⟩

/-- C8 (round-trip size). For every queue state and every value `v`: calling
`size()`, then `put(v)` immediately followed by `get(x)`, then `size()` again,
every call returns and both `size()` calls return the same number, the number
of elements held before the `put`. Both storage policies. -/
theorem TQueue.put_get_size {T : Type} {G : Type} [GuardType G]
    (g : G) (hg : GuardType.Available g) (xs : List T) (v x : T) :
    (∃ y q2, (⟨⟨⟨xs⟩⟩, g⟩ : TQueue T TQueueSl G).run x [.size, .put v, .get, .size]
        = some ([.size (xs.length : Nat), .put, .get true y, .size (xs.length : Nat)], y, q2))
    ∧ (∃ y q2, (⟨⟨⟨xs⟩⟩, g⟩ : TQueue T TQueueQt G).run x [.size, .put v, .get, .size]
        = some ([.size (xs.length : Int), .put, .get true y, .size (xs.length : Int)], y, q2)) := by
  constructor
  · cases xs with
    | nil =>
      exact ⟨v, ⟨⟨⟨[]⟩⟩, g⟩, by
        simp [TQueue.run, TQueue.call, TQueue.put_eq_of_available hg,
          TQueue.get_eq_of_available hg, TQueue.size_eq_of_available hg, TQueueSl.put_sl,
          TQueueSl.get_cons_sl, TQueueSl.size_sl]⟩
    | cons h t =>
      exact ⟨h, ⟨⟨⟨t ++ [v]⟩⟩, g⟩, by
        simp [TQueue.run, TQueue.call, TQueue.put_eq_of_available hg,
          TQueue.get_eq_of_available hg, TQueue.size_eq_of_available hg, TQueueSl.put_sl,
          TQueueSl.get_cons_sl, TQueueSl.size_sl]⟩
  · cases xs with
    | nil =>
      exact ⟨v, ⟨⟨⟨[]⟩⟩, g⟩, by
        simp [TQueue.run, TQueue.call, TQueue.put_eq_of_available hg,
          TQueue.get_eq_of_available hg, TQueue.size_eq_of_available hg, TQueueQt.put_qt,
          TQueueQt.get_cons_qt, TQueueQt.size_qt]⟩
    | cons h t =>
      exact ⟨h, ⟨⟨⟨t ++ [v]⟩⟩, g⟩, by
        simp [TQueue.run, TQueue.call, TQueue.put_eq_of_available hg,
          TQueue.get_eq_of_available hg, TQueue.size_eq_of_available hg, TQueueQt.put_qt,
          TQueueQt.get_cons_qt, TQueueQt.size_qt]⟩

/-- Witness of C8: the queue holding 1, 2, 3 has size 3 before `put(9)` and
after the `get` that follows it. -/
theorem TQueue.put_get_size_witness :
    GuardType.Available (GuardType.ctor : TQtMutexGuard)
    ∧ (∃ y q2, (⟨⟨⟨[1, 2, 3]⟩⟩, GuardType.ctor⟩ : TQueue Nat TQueueSl TQtMutexGuard).run 0
        [.size, .put 9, .get, .size]
        = some ([.size (3 : Nat), .put, .get true y, .size (3 : Nat)], y, q2)) :=
  ⟨TQtMutexGuard.available_qtMutex _,
    (TQueue.put_get_size GuardType.ctor (TQtMutexGuard.available_qtMutex _) [1, 2, 3] 9 0).1⟩

/-- C9 (put appends at the tail and never fails). For every queue with
contents `xs` and every value `v`, `put(v)` returns and leaves the queue with
contents `xs` followed by `v`; `size()` is `xs.length` before and
`xs.length + 1` after, `empty()` is false after, and when `xs` is non-empty
`readFront` yields the same element before and after the `put`. Both storage
policies. -/
theorem TQueue.put_appends {T : Type} {G : Type} [GuardType G]
    (g : G) (hg : GuardType.Available g) (xs : List T) (v x : T) :
    ((⟨⟨⟨xs⟩⟩, g⟩ : TQueue T TQueueSl G).put v = some ⟨⟨⟨xs ++ [v]⟩⟩, g⟩
      ∧ (⟨⟨⟨xs⟩⟩, g⟩ : TQueue T TQueueSl G).size = some ((xs.length : Nat), ⟨⟨⟨xs⟩⟩, g⟩)
      ∧ (⟨⟨⟨xs ++ [v]⟩⟩, g⟩ : TQueue T TQueueSl G).size
          = some ((xs.length + 1 : Nat), ⟨⟨⟨xs ++ [v]⟩⟩, g⟩)
      ∧ (⟨⟨⟨xs ++ [v]⟩⟩, g⟩ : TQueue T TQueueSl G).empty = some (false, ⟨⟨⟨xs ++ [v]⟩⟩, g⟩)
      ∧ ∀ (h : T) (t : List T), xs = h :: t →
          (⟨⟨⟨xs⟩⟩, g⟩ : TQueue T TQueueSl G).readFront x = some (true, h, ⟨⟨⟨xs⟩⟩, g⟩)
          ∧ (⟨⟨⟨xs ++ [v]⟩⟩, g⟩ : TQueue T TQueueSl G).readFront x
              = some (true, h, ⟨⟨⟨xs ++ [v]⟩⟩, g⟩))
    ∧ ((⟨⟨⟨xs⟩⟩, g⟩ : TQueue T TQueueQt G).put v = some ⟨⟨⟨xs ++ [v]⟩⟩, g⟩
      ∧ (⟨⟨⟨xs⟩⟩, g⟩ : TQueue T TQueueQt G).size = some ((xs.length : Int), ⟨⟨⟨xs⟩⟩, g⟩)
      ∧ (⟨⟨⟨xs ++ [v]⟩⟩, g⟩ : TQueue T TQueueQt G).size
          = some ((xs.length + 1 : Int), ⟨⟨⟨xs ++ [v]⟩⟩, g⟩)
      ∧ (⟨⟨⟨xs ++ [v]⟩⟩, g⟩ : TQueue T TQueueQt G).empty = some (false, ⟨⟨⟨xs ++ [v]⟩⟩, g⟩)
      ∧ ∀ (h : T) (t : List T), xs = h :: t →
          (⟨⟨⟨xs⟩⟩, g⟩ : TQueue T TQueueQt G).readFront x = some (true, h, ⟨⟨⟨xs⟩⟩, g⟩)
          ∧ (⟨⟨⟨xs ++ [v]⟩⟩, g⟩ : TQueue T TQueueQt G).readFront x
              = some (true, h, ⟨⟨⟨xs ++ [v]⟩⟩, g⟩)) := by
  refine ⟨⟨?_, ?_, ?_, ?_, ?_⟩, ⟨?_, ?_, ?_, ?_, ?_⟩⟩
  · exact TQueue.put_eq_of_available hg _ v
  · exact TQueue.size_eq_of_available hg _
  · simp [TQueue.size_eq_of_available hg, TQueueSl.size_sl]
  · simp [TQueue.empty_eq_of_available hg, TQueueSl.empty_sl]
  · rintro h t rfl
    simp [TQueue.readFront_eq_of_available hg, TQueueSl.readFront_cons_sl]
  · exact TQueue.put_eq_of_available hg _ v
  · exact TQueue.size_eq_of_available hg _
  · simp [TQueue.size_eq_of_available hg, TQueueQt.size_qt]
  · simp [TQueue.empty_eq_of_available hg, TQueueQt.empty_qt]
  · rintro h t rfl
    simp [TQueue.readFront_eq_of_available hg, TQueueQt.readFront_cons_qt]

/-- Witness of C9: `put(9)` on the queue holding 1, 2. -/
theorem TQueue.put_appends_witness :
    GuardType.Available (GuardType.ctor : TWinCsGuard)
    ∧ (⟨⟨⟨[1, 2]⟩⟩, GuardType.ctor⟩ : TQueue Nat TQueueSl TWinCsGuard).put 9
        = some ⟨⟨⟨[1, 2, 9]⟩⟩, GuardType.ctor⟩
    ∧ [1, 2] = 1 :: [2]
    ∧ (⟨⟨⟨[1, 2]⟩⟩, GuardType.ctor⟩ : TQueue Nat TQueueSl TWinCsGuard).readFront 0
        = some (true, 1, ⟨⟨⟨[1, 2]⟩⟩, GuardType.ctor⟩)
    ∧ (⟨⟨⟨[1, 2, 9]⟩⟩, GuardType.ctor⟩ : TQueue Nat TQueueSl TWinCsGuard).readFront 0
        = some (true, 1, ⟨⟨⟨[1, 2, 9]⟩⟩, GuardType.ctor⟩) :=
  ⟨TWinCsGuard.available_winCs _,
    (TQueue.put_appends GuardType.ctor (TWinCsGuard.available_winCs _) [1, 2] 9 0).1.1,
    rfl,
    (TQueue.put_appends GuardType.ctor (TWinCsGuard.available_winCs _) [1, 2] 9 0).1.2.2.2.2
      1 [2] rfl⟩

/-- C10 (pop on an empty queue): the code at the failing input. `TQueue::pop`
calls `pop_` with no emptiness check, and `pop_` calls the container's
remove-front operation with none either, so on an empty queue `pop()` has no
defined result, with either storage policy and under every guard; under
`TNoGuard` the queue `TQueue.ctor` is such a queue. -/
theorem TQueue.pop_empty_undefined {T : Type} {G : Type} [GuardType G] (g : G) :
    (⟨⟨⟨[]⟩⟩, g⟩ : TQueue T TQueueSl G).pop = none
    ∧ (⟨⟨⟨[]⟩⟩, g⟩ : TQueue T TQueueQt G).pop = none
    ∧ (TQueue.ctor : TQueue T TQueueSl TNoGuard).pop = none
    ∧ (TQueueSl.ctor : TQueueSl T).pop_ = none
    ∧ (TQueueQt.ctor : TQueueQt T).pop_ = none := by
  refine ⟨?_, ?_, rfl, rfl, rfl⟩
  · cases hw : GuardType.writeLockerCtor g with
    | none => simp [TQueue.pop, hw]
    | some g1 =>
      have hp : QueueType.pop_ (⟨⟨[]⟩⟩ : TQueueSl T) = none := rfl
      simp [TQueue.pop, hw, hp]
  · cases hw : GuardType.writeLockerCtor g with
    | none => simp [TQueue.pop, hw]
    | some g1 =>
      have hp : QueueType.pop_ (⟨⟨[]⟩⟩ : TQueueQt T) = none := rfl
      simp [TQueue.pop, hw, hp]

namespace QueueType

variable {T : Type}

theorem run_sl_qt (calls : List (Call T)) (xs : List T) (x : T) :
    (QueueType.run_ (⟨⟨xs⟩⟩ : TQueueSl T) x calls).map
        (fun r => (r.1.map (Result.mapSize Int.ofNat), r.2.1, r.2.2.mQueue.c))
      = (QueueType.run_ (⟨⟨xs⟩⟩ : TQueueQt T) x calls).map
        (fun r => (r.1, r.2.1, r.2.2.mQueue.items)) := by
  induction calls generalizing xs x with
  | nil => simp [run_]
  | cons c cs ih =>
    have key : ∀ (ys : List T) (y : T) (rS : Result Nat T) (rQ : Result Int T),
        rS.mapSize Int.ofNat = rQ →
        ((QueueType.run_ (⟨⟨ys⟩⟩ : TQueueSl T) y cs).bind
            (fun s => some (rS :: s.1, s.2.1, s.2.2))).map
          (fun r => (r.1.map (Result.mapSize Int.ofNat), r.2.1, r.2.2.mQueue.c))
        = ((QueueType.run_ (⟨⟨ys⟩⟩ : TQueueQt T) y cs).bind
            (fun s => some (rQ :: s.1, s.2.1, s.2.2))).map
          (fun r => (r.1, r.2.1, r.2.2.mQueue.items)) := by
      intro ys y rS rQ hr
      have h := ih ys y
      cases hS : QueueType.run_ (⟨⟨ys⟩⟩ : TQueueSl T) y cs <;>
        cases hQ : QueueType.run_ (⟨⟨ys⟩⟩ : TQueueQt T) y cs <;>
        simp [hS, hQ, hr] at h ⊢
      exact h
    cases c with
    | empty => simpa [run_, call_, TQueueSl.empty_sl, TQueueQt.empty_qt] using key xs x _ _ rfl
    | size => simpa [run_, call_, TQueueSl.size_sl, TQueueQt.size_qt] using key xs x _ _ rfl
    | put v => simpa [run_, call_, TQueueSl.put_sl, TQueueQt.put_qt] using key (xs ++ [v]) x _ _ rfl
    | pop =>
      cases xs with
      | nil =>
        have h1 : QueueType.pop_ (⟨⟨[]⟩⟩ : TQueueSl T) = none := rfl
        have h2 : QueueType.pop_ (⟨⟨[]⟩⟩ : TQueueQt T) = none := rfl
        simp [run_, call_, h1, h2]
      | cons h t =>
        simpa [run_, call_, TQueueSl.pop_sl, TQueueQt.pop_qt] using key t x _ _ rfl
    | readFront =>
      cases xs with
      | nil =>
        simpa [run_, call_, TQueueSl.readFront_nil_sl, TQueueQt.readFront_nil_qt]
          using key [] x (.readFront false x) _ rfl
      | cons h t =>
        simpa [run_, call_, TQueueSl.readFront_cons_sl, TQueueQt.readFront_cons_qt]
          using key (h :: t) h (.readFront true h) _ rfl
    | get =>
      cases xs with
      | nil =>
        simpa [run_, call_, TQueueSl.get_nil_sl, TQueueQt.get_nil_qt]
          using key [] x (.get false x) _ rfl
      | cons h t =>
        simpa [run_, call_, TQueueSl.get_cons_sl, TQueueQt.get_cons_qt]
          using key t h (.get true h) _ rfl

end QueueType

theorem QueueType.run_defined_sl {T : Type} (calls : List (Call T)) (xs : List T) (x : T)
    (hp : Call.popsOnNonEmpty xs.length calls = true) :
    (QueueType.run_ (⟨⟨xs⟩⟩ : TQueueSl T) x calls).isSome = true := by
  induction calls generalizing xs x with
  | nil => rfl
  | cons c cs ih =>
    cases c with
    | empty =>
      have hr := ih xs x (by simpa [Call.popsOnNonEmpty] using hp)
      obtain ⟨r, hr⟩ := Option.isSome_iff_exists.mp hr
      simp [run_, call_, hr]
    | size =>
      have hr := ih xs x (by simpa [Call.popsOnNonEmpty] using hp)
      obtain ⟨r, hr⟩ := Option.isSome_iff_exists.mp hr
      simp [run_, call_, hr]
    | put v =>
      have hr := ih (xs ++ [v]) x (by simpa [Call.popsOnNonEmpty] using hp)
      obtain ⟨r, hr⟩ := Option.isSome_iff_exists.mp hr
      simp [run_, call_, TQueueSl.put_sl, hr]
    | pop =>
      cases xs with
      | nil => simp [Call.popsOnNonEmpty] at hp
      | cons h t =>
        have hr := ih t x (by simpa [Call.popsOnNonEmpty] using hp)
        obtain ⟨r, hr⟩ := Option.isSome_iff_exists.mp hr
        simp [run_, call_, TQueueSl.pop_sl, hr]
    | readFront =>
      cases xs with
      | nil =>
        have hr := ih [] x (by simpa [Call.popsOnNonEmpty] using hp)
        obtain ⟨r, hr⟩ := Option.isSome_iff_exists.mp hr
        simp [run_, call_, TQueueSl.readFront_nil_sl, hr]
      | cons h t =>
        have hr := ih (h :: t) h (by simpa [Call.popsOnNonEmpty] using hp)
        obtain ⟨r, hr⟩ := Option.isSome_iff_exists.mp hr
        simp [run_, call_, TQueueSl.readFront_cons_sl, hr]
    | get =>
      cases xs with
      | nil =>
        have hr := ih [] x (by simpa [Call.popsOnNonEmpty] using hp)
        obtain ⟨r, hr⟩ := Option.isSome_iff_exists.mp hr
        simp [run_, call_, TQueueSl.get_nil_sl, hr]
      | cons h t =>
        have hr := ih t h (by simpa [Call.popsOnNonEmpty] using hp)
        obtain ⟨r, hr⟩ := Option.isSome_iff_exists.mp hr
        simp [run_, call_, TQueueSl.get_cons_sl, hr]

/-- C11 (the two storage policies are behaviourally identical). For every
finite sequence of the primitives `empty_`, `size_`, `put_`, `readFront_`,
`get_` and `pop_`, every `pop_` finding its queue non-empty, run from a fresh
instance: both `TQueueSl<T>` and `TQueueQt<T>` complete the sequence, return
the same results at every step (the same booleans, the same values of `x`,
the same sizes, one as `size_t` and one as `int`) and end with the same
contents in the same order; the sequence being arbitrary, this holds after
each of its steps. -/
theorem QueueType.backends_identical {T : Type} (calls : List (Call T)) (x : T)
    (hp : Call.popsOnNonEmpty 0 calls = true) :
    ∃ rsS xS qS rsQ xQ qQ,
      QueueType.run_ (QueueType.ctor : TQueueSl T) x calls = some (rsS, xS, qS)
      ∧ QueueType.run_ (QueueType.ctor : TQueueQt T) x calls = some (rsQ, xQ, qQ)
      ∧ rsS.map (Result.mapSize Int.ofNat) = rsQ ∧ xS = xQ
      ∧ qS.mQueue.c = qQ.mQueue.items := by
  obtain ⟨⟨rsS, xS, qS⟩, hS⟩ :=
    Option.isSome_iff_exists.mp (QueueType.run_defined_sl calls [] x hp)
  have h := QueueType.run_sl_qt calls [] x
  rw [hS] at h
  cases hQ : QueueType.run_ (⟨⟨[]⟩⟩ : TQueueQt T) x calls with
  | none => simp [hQ] at h
  | some r =>
    obtain ⟨rsQ, xQ, qQ⟩ := r
    simp [hQ] at h
    exact ⟨rsS, xS, qS, rsQ, xQ, qQ, hS, hQ, h.1, h.2.1, h.2.2⟩

/-- Witness of C11: a sequence through all six primitives, the `pop_` on a
queue holding two elements. -/
theorem QueueType.backends_identical_witness :
    Call.popsOnNonEmpty 0
        [Call.empty, .put 1, .put 2, .size, .readFront, .pop, .get, .get, .size] = true
    ∧ ∃ rsS xS qS rsQ xQ qQ,
      QueueType.run_ (QueueType.ctor : TQueueSl Nat) 0
          [.empty, .put 1, .put 2, .size, .readFront, .pop, .get, .get, .size]
        = some (rsS, xS, qS)
      ∧ QueueType.run_ (QueueType.ctor : TQueueQt Nat) 0
          [.empty, .put 1, .put 2, .size, .readFront, .pop, .get, .get, .size]
        = some (rsQ, xQ, qQ)
      ∧ rsS.map (Result.mapSize Int.ofNat) = rsQ ∧ xS = xQ
      ∧ qS.mQueue.c = qQ.mQueue.items :=
  ⟨by decide, QueueType.backends_identical
    [.empty, .put 1, .put 2, .size, .readFront, .pop, .get, .get, .size] 0 (by decide)⟩

/-- C13 (get equals read-front then discard-front). For every non-empty queue
state, contents `h` followed by `t`, and every prior value of `x`: `get(x)`
gives the same return value, the same `x` and the same resulting queue as
`readFront(x)` followed by `pop()`, namely true, `h` and the queue holding
`t`; `pop()` on that queue removes exactly the head element, the one
`readFront` yields, and nothing else. Both storage policies, at the level of
`TQueue` and at the level of the primitives `get_`, `readFront_`, `pop_`. -/
theorem TQueue.get_eq_readFront_pop {T : Type} {G : Type} [GuardType G]
    (g : G) (hg : GuardType.Available g) (h : T) (t : List T) (x : T) :
    ((⟨⟨⟨h :: t⟩⟩, g⟩ : TQueue T TQueueSl G).get x
        = ((⟨⟨⟨h :: t⟩⟩, g⟩ : TQueue T TQueueSl G).readFront x).bind
            (fun r => r.2.2.pop.map (fun q => (r.1, r.2.1, q)))
      ∧ (⟨⟨⟨h :: t⟩⟩, g⟩ : TQueue T TQueueSl G).get x = some (true, h, ⟨⟨⟨t⟩⟩, g⟩)
      ∧ (⟨⟨⟨h :: t⟩⟩, g⟩ : TQueue T TQueueSl G).readFront x
          = some (true, h, ⟨⟨⟨h :: t⟩⟩, g⟩)
      ∧ (⟨⟨⟨h :: t⟩⟩, g⟩ : TQueue T TQueueSl G).pop = some ⟨⟨⟨t⟩⟩, g⟩
      ∧ (⟨⟨h :: t⟩⟩ : TQueueSl T).get_ x
          = ((⟨⟨h :: t⟩⟩ : TQueueSl T).readFront_ x).bind
              (fun r => r.2.2.pop_.map (fun q => (r.1, r.2.1, q))))
    ∧ ((⟨⟨⟨h :: t⟩⟩, g⟩ : TQueue T TQueueQt G).get x
        = ((⟨⟨⟨h :: t⟩⟩, g⟩ : TQueue T TQueueQt G).readFront x).bind
            (fun r => r.2.2.pop.map (fun q => (r.1, r.2.1, q)))
      ∧ (⟨⟨⟨h :: t⟩⟩, g⟩ : TQueue T TQueueQt G).get x = some (true, h, ⟨⟨⟨t⟩⟩, g⟩)
      ∧ (⟨⟨⟨h :: t⟩⟩, g⟩ : TQueue T TQueueQt G).readFront x
          = some (true, h, ⟨⟨⟨h :: t⟩⟩, g⟩)
      ∧ (⟨⟨⟨h :: t⟩⟩, g⟩ : TQueue T TQueueQt G).pop = some ⟨⟨⟨t⟩⟩, g⟩
      ∧ (⟨⟨h :: t⟩⟩ : TQueueQt T).get_ x
          = ((⟨⟨h :: t⟩⟩ : TQueueQt T).readFront_ x).bind
              (fun r => r.2.2.pop_.map (fun q => (r.1, r.2.1, q)))) := by
  have gS : (⟨⟨⟨h :: t⟩⟩, g⟩ : TQueue T TQueueSl G).get x = some (true, h, ⟨⟨⟨t⟩⟩, g⟩) := by
    rw [TQueue.get_eq_of_available hg]; rfl
  have rS : (⟨⟨⟨h :: t⟩⟩, g⟩ : TQueue T TQueueSl G).readFront x
      = some (true, h, ⟨⟨⟨h :: t⟩⟩, g⟩) := by
    rw [TQueue.readFront_eq_of_available hg]; rfl
  have pS : (⟨⟨⟨h :: t⟩⟩, g⟩ : TQueue T TQueueSl G).pop = some ⟨⟨⟨t⟩⟩, g⟩ := by
    rw [TQueue.pop_eq_of_available hg]; rfl
  have gQ : (⟨⟨⟨h :: t⟩⟩, g⟩ : TQueue T TQueueQt G).get x = some (true, h, ⟨⟨⟨t⟩⟩, g⟩) := by
    rw [TQueue.get_eq_of_available hg]; rfl
  have rQ : (⟨⟨⟨h :: t⟩⟩, g⟩ : TQueue T TQueueQt G).readFront x
      = some (true, h, ⟨⟨⟨h :: t⟩⟩, g⟩) := by
    rw [TQueue.readFront_eq_of_available hg]; rfl
  have pQ : (⟨⟨⟨h :: t⟩⟩, g⟩ : TQueue T TQueueQt G).pop = some ⟨⟨⟨t⟩⟩, g⟩ := by
    rw [TQueue.pop_eq_of_available hg]; rfl
  refine ⟨⟨?_, gS, rS, pS, rfl⟩, ⟨?_, gQ, rQ, pQ, rfl⟩⟩
  · rw [gS, rS]; simp [pS]
  · rw [gQ, rQ]; simp [pQ]

/-- Witness of C13: the queue holding 5, 6, 7 under the read-write lock
guard. -/
theorem TQueue.get_eq_readFront_pop_witness :
    GuardType.Available (GuardType.ctor : TQtReadWriteLockGuard)
    ∧ (⟨⟨⟨[5, 6, 7]⟩⟩, GuardType.ctor⟩ : TQueue Nat TQueueSl TQtReadWriteLockGuard).get 0
        = ((⟨⟨⟨[5, 6, 7]⟩⟩, GuardType.ctor⟩
              : TQueue Nat TQueueSl TQtReadWriteLockGuard).readFront 0).bind
            (fun r => r.2.2.pop.map (fun q => (r.1, r.2.1, q)))
    ∧ (⟨⟨⟨[5, 6, 7]⟩⟩, GuardType.ctor⟩ : TQueue Nat TQueueQt TQtReadWriteLockGuard).pop
        = some ⟨⟨⟨[6, 7]⟩⟩, GuardType.ctor⟩ :=
  ⟨TQtReadWriteLockGuard.available_ctor,
    (TQueue.get_eq_readFront_pop GuardType.ctor TQtReadWriteLockGuard.available_ctor
      5 [6, 7] 0).1.1,
    (TQueue.get_eq_readFront_pop GuardType.ctor TQtReadWriteLockGuard.available_ctor
      5 [6, 7] 0).2.2.2.2.1⟩

namespace TQueue

variable {T : Type} {Q : Type → Type} {G : Type} [QueueType Q] [GuardType G]

end TQueue

theorem TNoGuard.restores_noGuard :
    (∀ g g1 : TNoGuard, GuardType.readLockerCtor g = some g1 →
      GuardType.readLockerDtor g1 = some g)
    ∧ (∀ g g1 : TNoGuard, GuardType.writeLockerCtor g = some g1 →
      GuardType.writeLockerDtor g1 = some g) :=
  ⟨fun _ _ _ => rfl, fun _ _ _ => rfl⟩

theorem TWinCsGuard.restores_winCs :
    (∀ g g1 : TWinCsGuard, GuardType.readLockerCtor g = some g1 →
      GuardType.readLockerDtor g1 = some g)
    ∧ (∀ g g1 : TWinCsGuard, GuardType.writeLockerCtor g = some g1 →
      GuardType.writeLockerDtor g1 = some g) := by
  constructor <;>
  · intro g g1 h
    have e : g1 = ⟨⟨g.mCs.recursionCount + 1⟩⟩ := (Option.some.inj h).symm
    subst e
    rfl

theorem TQtMutexGuard.restores_qtMutex :
    (∀ g g1 : TQtMutexGuard, GuardType.readLockerCtor g = some g1 →
      GuardType.readLockerDtor g1 = some g)
    ∧ (∀ g g1 : TQtMutexGuard, GuardType.writeLockerCtor g = some g1 →
      GuardType.writeLockerDtor g1 = some g) := by
  constructor <;>
  · intro g g1 h
    have e : g1 = ⟨⟨g.mMutex.lockCount + 1⟩⟩ := (Option.some.inj h).symm
    subst e
    rfl

theorem TQtReadWriteLockGuard.restores_qtReadWriteLock :
    (∀ g g1 : TQtReadWriteLockGuard, GuardType.readLockerCtor g = some g1 →
      GuardType.readLockerDtor g1 = some g)
    ∧ (∀ g g1 : TQtReadWriteLockGuard, GuardType.writeLockerCtor g = some g1 →
      GuardType.writeLockerDtor g1 = some g) := by
  constructor
  · rintro ⟨⟨n, w⟩⟩ g1 h
    cases w with
    | true => exact absurd h (by simp [GuardType.readLockerCtor,
        TQtReadWriteLockGuard.TReadLocker.ctor, QReadWriteLock.lockForRead])
    | false =>
      have e : g1 = ⟨⟨n + 1, false⟩⟩ := (Option.some.inj h).symm
      subst e
      rfl
  · rintro ⟨⟨n, w⟩⟩ g1 h
    cases w with
    | true => exact absurd h (by simp [GuardType.writeLockerCtor,
        TQtReadWriteLockGuard.TWriteLocker.ctor, QReadWriteLock.lockForWrite])
    | false =>
      cases n with
      | zero =>
        have e : g1 = ⟨⟨0, true⟩⟩ := (Option.some.inj h).symm
        subst e
        rfl
      | succ m => exact absurd h (by simp [GuardType.writeLockerCtor,
          TQtReadWriteLockGuard.TWriteLocker.ctor, QReadWriteLock.lockForWrite])

namespace TQueue

variable {T : Type} {Q : Type → Type} {G : Type} [QueueType Q] [GuardType G]

theorem call_guard_restores
    (hR : ∀ g g1 : G, GuardType.readLockerCtor g = some g1 →
      GuardType.readLockerDtor g1 = some g)
    (hW : ∀ g g1 : G, GuardType.writeLockerCtor g = some g1 →
      GuardType.writeLockerDtor g1 = some g)
    (q : TQueue T Q G) (x : T) (c : Call T)
    {r : Result (QueueType.SizeType_ Q) T} {x1 : T} {q1 : TQueue T Q G}
    (h : q.call x c = some (r, x1, q1)) : q1.guard = q.guard := by
  cases c with
  | empty =>
    cases h1 : GuardType.readLockerCtor q.guard with
    | none => simp [call, empty, h1] at h
    | some g1 =>
      simp [call, empty, h1, hR _ _ h1] at h
      rw [← h.2.2]
  | size =>
    cases h1 : GuardType.readLockerCtor q.guard with
    | none => simp [call, size, h1] at h
    | some g1 =>
      simp [call, size, h1, hR _ _ h1] at h
      rw [← h.2.2]
  | put v =>
    cases h1 : GuardType.writeLockerCtor q.guard with
    | none => simp [call, put, h1] at h
    | some g1 =>
      simp [call, put, h1, hW _ _ h1] at h
      rw [← h.2.2]
  | pop =>
    cases h1 : GuardType.writeLockerCtor q.guard with
    | none => simp [call, pop, h1] at h
    | some g1 =>
      cases hp : QueueType.pop_ q.queue with
      | none => simp [call, pop, h1, hp] at h
      | some b1 =>
        simp [call, pop, h1, hp, hW _ _ h1] at h
        rw [← h.2.2]
  | readFront =>
    cases h1 : GuardType.readLockerCtor q.guard with
    | none => simp [call, readFront, h1] at h
    | some g1 =>
      cases hp : QueueType.readFront_ q.queue x with
      | none => simp [call, readFront, h1, hp] at h
      | some b1 =>
        simp [call, readFront, h1, hp, hR _ _ h1] at h
        rw [← h.2.2]
  | get =>
    cases h1 : GuardType.writeLockerCtor q.guard with
    | none => simp [call, get, h1] at h
    | some g1 =>
      cases hp : QueueType.get_ q.queue x with
      | none => simp [call, get, h1, hp] at h
      | some b1 =>
        simp [call, get, h1, hp, hW _ _ h1] at h
        rw [← h.2.2]

theorem run_guard_restores
    (hR : ∀ g g1 : G, GuardType.readLockerCtor g = some g1 →
      GuardType.readLockerDtor g1 = some g)
    (hW : ∀ g g1 : G, GuardType.writeLockerCtor g = some g1 →
      GuardType.writeLockerDtor g1 = some g)
    (cs : List (Call T)) (q : TQueue T Q G) (x : T)
    {rs : List (Result (QueueType.SizeType_ Q) T)} {x1 : T} {q1 : TQueue T Q G}
    (h : q.run x cs = some (rs, x1, q1)) : q1.guard = q.guard := by
  induction cs generalizing q x rs x1 q1 with
  | nil =>
    simp [run] at h
    rw [← h.2.2]
  | cons c cs ih =>
    cases hc : q.call x c with
    | none => simp [run, hc] at h
    | some r =>
      obtain ⟨r1, x2, q2⟩ := r
      have hq2 : q2.guard = q.guard := call_guard_restores hR hW q x c hc
      cases hr : q2.run x2 cs with
      | none => simp [run, hc, hr] at h
      | some s =>
        obtain ⟨rs2, x3, q3⟩ := s
        simp [run, hc, hr] at h
        obtain ⟨_, _, rfl⟩ := h
        rw [ih q2 x2 hr, hq2]

theorem scopedRelease_of_restores
    (hR : ∀ g g1 : G, GuardType.readLockerCtor g = some g1 →
      GuardType.readLockerDtor g1 = some g)
    (hW : ∀ g g1 : G, GuardType.writeLockerCtor g = some g1 →
      GuardType.writeLockerDtor g1 = some g)
    (hA : GuardType.Available (GuardType.ctor : G)) : TQueue.ScopedRelease G := by
  refine ⟨?_, ?_, ?_⟩
  · intro T Q _ q x c r x1 q1 h
    exact call_guard_restores hR hW q x c h
  · intro T x
    refine ⟨?_, ?_, ?_, ?_⟩
    · rw [get_eq_of_available hA]; rfl
    · rw [readFront_eq_of_available hA]; rfl
    · rw [get_eq_of_available hA]; rfl
    · rw [readFront_eq_of_available hA]; rfl
  · intro T Q _ calls x rs x1 q1 h
    exact run_guard_restores hR hW calls _ x h

end TQueue

/-- C15 (scoped release on every exit path). With the guard as explicit state
(nothing for `TNoGuard`, the recursion count of the critical section or of the
mutex, the reader count and writer flag of the read-write lock), under each of
the four guard policies every public operation that returns leaves the guard
in exactly the state it had before the call, the early `return false` of `get`
and `readFront` on an empty queue included; hence after any sequence of
completed operations on a freshly constructed queue no lock is held. -/
theorem TQueue.scoped_release :
    TQueue.ScopedRelease TNoGuard ∧ TQueue.ScopedRelease TWinCsGuard
    ∧ TQueue.ScopedRelease TQtMutexGuard ∧ TQueue.ScopedRelease TQtReadWriteLockGuard :=
  ⟨TQueue.scopedRelease_of_restores TNoGuard.restores_noGuard.1 TNoGuard.restores_noGuard.2
      (TNoGuard.available_noGuard _),
    TQueue.scopedRelease_of_restores TWinCsGuard.restores_winCs.1
      TWinCsGuard.restores_winCs.2 (TWinCsGuard.available_winCs _),
    TQueue.scopedRelease_of_restores TQtMutexGuard.restores_qtMutex.1
      TQtMutexGuard.restores_qtMutex.2 (TQtMutexGuard.available_qtMutex _),
    TQueue.scopedRelease_of_restores TQtReadWriteLockGuard.restores_qtReadWriteLock.1
      TQtReadWriteLockGuard.restores_qtReadWriteLock.2 TQtReadWriteLockGuard.available_ctor⟩

/-- Witness of C15: a `readFront` on the empty queue with two read locks held
on the read-write lock, a `put` with the critical section entered once, and a
run on a fresh queue under the mutex guard. -/
theorem TQueue.scoped_release_witness :
    (TQueue.call (⟨⟨⟨[]⟩⟩, ⟨⟨2, false⟩⟩⟩ : TQueue Nat TQueueSl TQtReadWriteLockGuard) 7
          .readFront
        = some (.readFront false 7, 7, ⟨⟨⟨[]⟩⟩, ⟨⟨2, false⟩⟩⟩)
      ∧ (⟨⟨⟨[]⟩⟩, ⟨⟨2, false⟩⟩⟩ : TQueue Nat TQueueSl TQtReadWriteLockGuard).guard
        = ⟨⟨2, false⟩⟩)
    ∧ (TQueue.call (⟨⟨⟨[1]⟩⟩, ⟨⟨1⟩⟩⟩ : TQueue Nat TQueueQt TWinCsGuard) 0 (.put 2)
        = some (.put, 0, ⟨⟨⟨[1, 2]⟩⟩, ⟨⟨1⟩⟩⟩)
      ∧ (⟨⟨⟨[1, 2]⟩⟩, ⟨⟨1⟩⟩⟩ : TQueue Nat TQueueQt TWinCsGuard).guard = ⟨⟨1⟩⟩)
    ∧ ((TQueue.ctor : TQueue Nat TQueueSl TQtMutexGuard).run 0 [.put 1, .readFront, .get, .get]
        = some ([.put, .readFront true 1, .get true 1, .get false 1], 1, TQueue.ctor)
      ∧ (TQueue.ctor : TQueue Nat TQueueSl TQtMutexGuard).guard = GuardType.ctor) :=
  ⟨⟨rfl, TQueue.scoped_release.2.2.2.1 Nat TQueueSl
      (⟨⟨⟨[]⟩⟩, ⟨⟨2, false⟩⟩⟩ : TQueue Nat TQueueSl TQtReadWriteLockGuard) 7 .readFront
      (.readFront false 7) 7 ⟨⟨⟨[]⟩⟩, ⟨⟨2, false⟩⟩⟩ rfl⟩,
    ⟨rfl, TQueue.scoped_release.2.1.1 Nat TQueueQt
      (⟨⟨⟨[1]⟩⟩, ⟨⟨1⟩⟩⟩ : TQueue Nat TQueueQt TWinCsGuard) 0 (.put 2)
      .put 0 ⟨⟨⟨[1, 2]⟩⟩, ⟨⟨1⟩⟩⟩ rfl⟩,
    ⟨rfl, TQueue.scoped_release.2.2.1.2.2 Nat TQueueSl
      [.put 1, .readFront, .get, .get] 0
      [.put, .readFront true 1, .get true 1, .get false 1] 1 TQueue.ctor rfl⟩⟩

/-! ## Guard transparency -/

theorem TQueue.transparent_of_available {G : Type} [GuardType G] {g : G}
    (hg : GuardType.Available g) : TQueue.Transparent g :=
  fun _ _ _ b x v =>
    ⟨TQueue.empty_eq_of_available hg b, TQueue.size_eq_of_available hg b,
      TQueue.put_eq_of_available hg b v, TQueue.pop_eq_of_available hg b,
      TQueue.readFront_eq_of_available hg b x, TQueue.get_eq_of_available hg b x⟩

/-- C16 (guard transparency). In single-threaded use, under each of the four
guard policies, each public operation of `TQueue` hands back the same result,
the same output value and the same resulting contents as the corresponding
storage primitive applied directly to the storage object: in every state of
the guard for `TNoGuard`, `TWinCsGuard` and `TQtMutexGuard`, and for
`TQtReadWriteLockGuard` in every state the queue reaches from its construction
through calls of the public operations. -/
theorem TQueue.guard_transparency :
    (∀ g : TNoGuard, TQueue.Transparent g)
    ∧ (∀ g : TWinCsGuard, TQueue.Transparent g)
    ∧ (∀ g : TQtMutexGuard, TQueue.Transparent g)
    ∧ (∀ (T : Type) (Q : Type → Type) [QueueType Q] (calls : List (Call T)) (x : T)
        (rs : List (Result (QueueType.SizeType_ Q) T)) (x1 : T)
        (q1 : TQueue T Q TQtReadWriteLockGuard),
        (TQueue.ctor : TQueue T Q TQtReadWriteLockGuard).run x calls = some (rs, x1, q1) →
          TQueue.Transparent q1.guard) := by
  refine ⟨fun g => TQueue.transparent_of_available (TNoGuard.available_noGuard g),
    fun g => TQueue.transparent_of_available (TWinCsGuard.available_winCs g),
    fun g => TQueue.transparent_of_available (TQtMutexGuard.available_qtMutex g), ?_⟩
  intro T Q _ calls x rs x1 q1 h
  have hq : q1.guard = GuardType.ctor :=
    TQueue.run_guard TQtReadWriteLockGuard.available_ctor calls _ x h
  rw [hq]
  exact TQueue.transparent_of_available TQtReadWriteLockGuard.available_ctor

/-- Witness of C16: `get` under the read-write lock guard after a run of two
puts and a read, against `get_` on the storage object. -/
theorem TQueue.guard_transparency_witness :
    (TQueue.ctor : TQueue Nat TQueueSl TQtReadWriteLockGuard).run 0 [.put 1, .put 2, .readFront]
        = some ([.put, .put, .readFront true 1], 1, ⟨⟨⟨[1, 2]⟩⟩, GuardType.ctor⟩)
    ∧ TQueue.get (⟨⟨⟨[1, 2]⟩⟩, GuardType.ctor⟩ : TQueue Nat TQueueSl TQtReadWriteLockGuard) 1
        = (QueueType.get_ (⟨⟨[1, 2]⟩⟩ : TQueueSl Nat) 1).map
            (fun r => (r.1, r.2.1, ⟨r.2.2, GuardType.ctor⟩))
    ∧ QueueType.get_ (⟨⟨[1, 2]⟩⟩ : TQueueSl Nat) 1 = some (true, 1, ⟨⟨[2]⟩⟩) :=
  have h : (TQueue.ctor : TQueue Nat TQueueSl TQtReadWriteLockGuard).run 0
      [.put 1, .put 2, .readFront]
      = some ([.put, .put, .readFront true 1], 1, ⟨⟨⟨[1, 2]⟩⟩, GuardType.ctor⟩) := rfl
  ⟨h,
    (TQueue.guard_transparency.2.2.2 Nat TQueueSl [.put 1, .put 2, .readFront] 0
      [.put, .put, .readFront true 1] 1 ⟨⟨⟨[1, 2]⟩⟩, GuardType.ctor⟩ h
      Nat TQueueSl ⟨⟨[1, 2]⟩⟩ 1 0).2.2.2.2.2,
    rfl⟩

/-! ## Draining -/

namespace TQueue

variable {T : Type} {Q : Type → Type} {G : Type} [QueueType Q] [GuardType G]

theorem drain_fifo {ofList : {T : Type} → List T → Q T} (hQ : QueueType.IsFifo Q ofList)
    {g : G} (hg : GuardType.Available g) (xs : List T) (x : T) (fuel : Nat)
    (hf : xs.length < fuel) :
    TQueue.drain fuel (⟨ofList xs, g⟩ : TQueue T Q G) x
      = some (xs, xs.length + 1, xs.getLastD x, ⟨ofList [], g⟩) := by
  induction xs generalizing x fuel with
  | nil =>
    cases fuel with
    | zero => simp at hf
    | succ n => simp [drain, get_eq_of_available hg, hQ.get_nil]
  | cons h t ih =>
    cases fuel with
    | zero => simp at hf
    | succ n =>
      have e : (h :: t).getLastD x = t.getLastD h := List.getLastD_cons x h t
      rw [e]
      simp [drain, get_eq_of_available hg, hQ.get_cons, ih h n (by simpa using hf)]

theorem drain_short {ofList : {T : Type} → List T → Q T} (hQ : QueueType.IsFifo Q ofList)
    {g : G} (hg : GuardType.Available g) (xs : List T) (x : T) (fuel : Nat)
    (hf : fuel ≤ xs.length) :
    TQueue.drain fuel (⟨ofList xs, g⟩ : TQueue T Q G) x = none := by
  induction xs generalizing x fuel with
  | nil =>
    have e : fuel = 0 := by simpa using hf
    subst e
    rfl
  | cons h t ih =>
    cases fuel with
    | zero => rfl
    | succ n =>
      simp [drain, get_eq_of_available hg, hQ.get_cons, ih h n (by simpa using hf)]

end TQueue

/-- C17 (draining terminates after exactly size() steps). For every queue
state, contents `xs` and so `size()` equal to `xs.length`, the loop
`while (q.get(x))` given room for more than `xs.length` calls of `get` ends:
it makes exactly `xs.length` successful calls, which yield the contents head
to tail, followed by one call that returns false, `xs.length + 1` calls in
all, and leaves a queue on which `empty()` is true and `size()` is 0; given
room for `xs.length` calls or fewer it has not ended. Both storage
policies. -/
theorem TQueue.drain_terminates {T : Type} {G : Type} [GuardType G]
    (g : G) (hg : GuardType.Available g) (xs : List T) (x : T) (fuel : Nat)
    (hf : xs.length < fuel) :
    ((⟨⟨⟨xs⟩⟩, g⟩ : TQueue T TQueueSl G).size = some ((xs.length : Nat), ⟨⟨⟨xs⟩⟩, g⟩)
      ∧ TQueue.drain fuel (⟨⟨⟨xs⟩⟩, g⟩ : TQueue T TQueueSl G) x
          = some (xs, xs.length + 1, xs.getLastD x, ⟨⟨⟨[]⟩⟩, g⟩)
      ∧ (⟨⟨⟨[]⟩⟩, g⟩ : TQueue T TQueueSl G).empty = some (true, ⟨⟨⟨[]⟩⟩, g⟩)
      ∧ (⟨⟨⟨[]⟩⟩, g⟩ : TQueue T TQueueSl G).size = some ((0 : Nat), ⟨⟨⟨[]⟩⟩, g⟩)
      ∧ ∀ fuel1, fuel1 ≤ xs.length →
          TQueue.drain fuel1 (⟨⟨⟨xs⟩⟩, g⟩ : TQueue T TQueueSl G) x = none)
    ∧ ((⟨⟨⟨xs⟩⟩, g⟩ : TQueue T TQueueQt G).size = some ((xs.length : Int), ⟨⟨⟨xs⟩⟩, g⟩)
      ∧ TQueue.drain fuel (⟨⟨⟨xs⟩⟩, g⟩ : TQueue T TQueueQt G) x
          = some (xs, xs.length + 1, xs.getLastD x, ⟨⟨⟨[]⟩⟩, g⟩)
      ∧ (⟨⟨⟨[]⟩⟩, g⟩ : TQueue T TQueueQt G).empty = some (true, ⟨⟨⟨[]⟩⟩, g⟩)
      ∧ (⟨⟨⟨[]⟩⟩, g⟩ : TQueue T TQueueQt G).size = some ((0 : Int), ⟨⟨⟨[]⟩⟩, g⟩)
      ∧ ∀ fuel1, fuel1 ≤ xs.length →
          TQueue.drain fuel1 (⟨⟨⟨xs⟩⟩, g⟩ : TQueue T TQueueQt G) x = none) :=
  ⟨⟨TQueue.size_eq_of_available hg _, TQueue.drain_fifo TQueueSl.isFifo_sl hg xs x fuel hf,
      TQueue.empty_eq_of_available hg _, TQueue.size_eq_of_available hg _,
      fun f1 h1 => TQueue.drain_short TQueueSl.isFifo_sl hg xs x f1 h1⟩,
    ⟨TQueue.size_eq_of_available hg _, TQueue.drain_fifo TQueueQt.isFifo_qt hg xs x fuel hf,
      TQueue.empty_eq_of_available hg _, TQueue.size_eq_of_available hg _,
      fun f1 h1 => TQueue.drain_short TQueueQt.isFifo_qt hg xs x f1 h1⟩⟩

/-- Witness of C17: draining the queue holding 4, 5, 6 with room for ten
calls. -/
theorem TQueue.drain_terminates_witness :
    GuardType.Available (GuardType.ctor : TQtReadWriteLockGuard)
    ∧ [4, 5, 6].length < 10
    ∧ TQueue.drain 10 (⟨⟨⟨[4, 5, 6]⟩⟩, GuardType.ctor⟩
          : TQueue Nat TQueueSl TQtReadWriteLockGuard) 0
        = some ([4, 5, 6], 4, 6, ⟨⟨⟨[]⟩⟩, GuardType.ctor⟩)
    ∧ 3 ≤ [4, 5, 6].length
    ∧ TQueue.drain 3 (⟨⟨⟨[4, 5, 6]⟩⟩, GuardType.ctor⟩
          : TQueue Nat TQueueQt TQtReadWriteLockGuard) 0 = none :=
  ⟨TQtReadWriteLockGuard.available_ctor, by decide,
    (TQueue.drain_terminates GuardType.ctor TQtReadWriteLockGuard.available_ctor
      [4, 5, 6] 0 10 (by decide)).1.2.1,
    by decide,
    (TQueue.drain_terminates GuardType.ctor TQtReadWriteLockGuard.available_ctor
      [4, 5, 6] 0 10 (by decide)).2.2.2.2.2 3 (by decide)⟩

/-! ## The queries -/

namespace TQueue

variable {T : Type} {Q : Type → Type} {G : Type} [QueueType Q] [GuardType G]

theorem run_counts {ofList : {T : Type} → List T → Q T} (hQ : QueueType.IsFifo Q ofList)
    {g : G} (hg : GuardType.Available g) (calls : List (Call T)) (xs : List T) (x : T)
    {rs : List (Result (QueueType.SizeType_ Q) T)} {x1 : T} {q1 : TQueue T Q G}
    (h : TQueue.run (⟨ofList xs, g⟩ : TQueue T Q G) x calls = some (rs, x1, q1)) :
    ∃ ys, q1 = ⟨ofList ys, g⟩
      ∧ ys.length + Result.countGets rs + Result.countPops rs
          = xs.length + Result.countPuts rs := by
  induction calls generalizing xs x rs x1 q1 with
  | nil =>
    simp [run] at h
    obtain ⟨rfl, _, rfl⟩ := h
    exact ⟨xs, rfl, by simp [Result.countGets, Result.countPops, Result.countPuts]⟩
  | cons c cs ih =>
    have step : ∀ (r : Result (QueueType.SizeType_ Q) T) (y : T) (zs : List T),
        TQueue.call (⟨ofList xs, g⟩ : TQueue T Q G) x c = some (r, y, ⟨ofList zs, g⟩) →
        ∃ rs1 ys, rs = r :: rs1 ∧ q1 = ⟨ofList ys, g⟩
          ∧ ys.length + Result.countGets rs1 + Result.countPops rs1
              = zs.length + Result.countPuts rs1 := by
      intro r y zs hc
      cases hr : TQueue.run (⟨ofList zs, g⟩ : TQueue T Q G) y cs with
      | none => simp [run, hc, hr] at h
      | some s =>
        obtain ⟨rs1, x2, q2⟩ := s
        simp [run, hc, hr] at h
        obtain ⟨rfl, _, rfl⟩ := h
        obtain ⟨ys, hy, hn⟩ := ih zs y hr
        exact ⟨rs1, ys, rfl, hy, hn⟩
    cases c with
    | empty =>
      obtain ⟨rs1, ys, rfl, hy, hn⟩ := step (.empty (QueueType.empty_ (ofList xs))) x xs
        (by simp [call, empty_eq_of_available hg])
      exact ⟨ys, hy, by simpa [Result.countGets, Result.countPops, Result.countPuts] using hn⟩
    | size =>
      obtain ⟨rs1, ys, rfl, hy, hn⟩ := step (.size (QueueType.size_ (ofList xs))) x xs
        (by simp [call, size_eq_of_available hg])
      exact ⟨ys, hy, by simpa [Result.countGets, Result.countPops, Result.countPuts] using hn⟩
    | put v =>
      obtain ⟨rs1, ys, rfl, hy, hn⟩ := step .put x (xs ++ [v]) (call_put hQ hg xs x v)
      refine ⟨ys, hy, ?_⟩
      simp [Result.countGets, Result.countPops, Result.countPuts] at hn ⊢
      omega
    | pop =>
      cases xs with
      | nil => simp [run, call, pop_eq_of_available hg, hQ.pop_nil] at h
      | cons a t =>
        obtain ⟨rs1, ys, rfl, hy, hn⟩ := step .pop x t
          (by simp [call, pop_eq_of_available hg, hQ.pop_cons])
        refine ⟨ys, hy, ?_⟩
        simp [Result.countGets, Result.countPops, Result.countPuts] at hn ⊢
        omega
    | readFront =>
      cases xs with
      | nil =>
        obtain ⟨rs1, ys, rfl, hy, hn⟩ := step (.readFront false x) x []
          (call_readFront_nil hQ hg x)
        exact ⟨ys, hy,
          by simpa [Result.countGets, Result.countPops, Result.countPuts] using hn⟩
      | cons a t =>
        obtain ⟨rs1, ys, rfl, hy, hn⟩ := step (.readFront true a) a (a :: t)
          (call_readFront_cons hQ hg a t x)
        exact ⟨ys, hy,
          by simpa [Result.countGets, Result.countPops, Result.countPuts] using hn⟩
    | get =>
      cases xs with
      | nil =>
        obtain ⟨rs1, ys, rfl, hy, hn⟩ := step (.get false x) x [] (call_get_nil hQ hg x)
        exact ⟨ys, hy,
          by simpa [Result.countGets, Result.countPops, Result.countPuts] using hn⟩
      | cons a t =>
        obtain ⟨rs1, ys, rfl, hy, hn⟩ := step (.get true a) a t (call_get_cons hQ hg a t x)
        refine ⟨ys, hy, ?_⟩
        simp [Result.countGets, Result.countPops, Result.countPuts] at hn ⊢
        omega

end TQueue

/-- C18 (the queries are pure). For every queue state, contents `xs`:
`empty()` and `size()` return and leave the queue, contents and guard, exactly
as it was, and `size()` returns exactly the number of elements held; and in
every state reached from a freshly constructed queue by calls of the public
operations that number is the number of `put` calls minus the number of
successful `get` calls and of `pop` calls made since construction. Both
storage policies, `size()` as `size_t` and as `int`. -/
theorem TQueue.queries_pure {T : Type} {G : Type} [GuardType G]
    (hc : GuardType.Available (GuardType.ctor : G)) (g : G) (hg : GuardType.Available g)
    (xs : List T) (calls : List (Call T)) (x : T) :
    ((⟨⟨⟨xs⟩⟩, g⟩ : TQueue T TQueueSl G).empty = some (xs.isEmpty, ⟨⟨⟨xs⟩⟩, g⟩)
      ∧ (⟨⟨⟨xs⟩⟩, g⟩ : TQueue T TQueueSl G).size = some ((xs.length : Nat), ⟨⟨⟨xs⟩⟩, g⟩)
      ∧ ∀ rs x1 (q1 : TQueue T TQueueSl G), TQueue.ctor.run x calls = some (rs, x1, q1) →
          ∃ n : Nat, q1.size = some (n, q1) ∧ n = q1.queue.mQueue.c.length
            ∧ n + Result.countGets rs + Result.countPops rs = Result.countPuts rs)
    ∧ ((⟨⟨⟨xs⟩⟩, g⟩ : TQueue T TQueueQt G).empty = some (xs.isEmpty, ⟨⟨⟨xs⟩⟩, g⟩)
      ∧ (⟨⟨⟨xs⟩⟩, g⟩ : TQueue T TQueueQt G).size = some ((xs.length : Int), ⟨⟨⟨xs⟩⟩, g⟩)
      ∧ ∀ rs x1 (q1 : TQueue T TQueueQt G), TQueue.ctor.run x calls = some (rs, x1, q1) →
          ∃ n : Int, q1.size = some (n, q1) ∧ n = (q1.queue.mQueue.items.length : Int)
            ∧ n = (Result.countPuts rs : Int) - (Result.countGets rs : Int)
                - (Result.countPops rs : Int)) := by
  refine ⟨⟨TQueue.empty_eq_of_available hg _, TQueue.size_eq_of_available hg _, ?_⟩,
    ⟨TQueue.empty_eq_of_available hg _, TQueue.size_eq_of_available hg _, ?_⟩⟩
  · intro rs x1 q1 h
    obtain ⟨ys, rfl, hn⟩ := TQueue.run_counts TQueueSl.isFifo_sl hc calls [] x h
    exact ⟨ys.length, TQueue.size_eq_of_available hc _, rfl, by simpa using hn⟩
  · intro rs x1 q1 h
    obtain ⟨ys, rfl, hn⟩ := TQueue.run_counts TQueueQt.isFifo_qt hc calls [] x h
    refine ⟨(ys.length : Int), TQueue.size_eq_of_available hc _, rfl, ?_⟩
    simp only [List.length_nil, Nat.zero_add] at hn
    omega

/-- Witness of C18: after three puts, one successful `get` and one `pop` the
queue holds one element, and `size()` is 1 = 3 - 1 - 1. -/
theorem TQueue.queries_pure_witness :
    GuardType.Available (GuardType.ctor : TQtMutexGuard)
    ∧ (TQueue.ctor : TQueue Nat TQueueSl TQtMutexGuard).run 0
        [.put 1, .put 2, .get, .empty, .put 3, .pop, .size]
      = some ([.put, .put, .get true 1, .empty false, .put, .pop, .size (1 : Nat)], 1,
          ⟨⟨⟨[3]⟩⟩, GuardType.ctor⟩)
    ∧ (∃ n : Nat, (⟨⟨⟨[3]⟩⟩, GuardType.ctor⟩ : TQueue Nat TQueueSl TQtMutexGuard).size
          = some (n, ⟨⟨⟨[3]⟩⟩, GuardType.ctor⟩)
        ∧ n = (⟨⟨⟨[3]⟩⟩, GuardType.ctor⟩
            : TQueue Nat TQueueSl TQtMutexGuard).queue.mQueue.c.length
        ∧ n + Result.countGets
              ([.put, .put, .get true 1, .empty false, .put, .pop, .size (1 : Nat)]
                : List (Result Nat Nat))
            + Result.countPops
              ([.put, .put, .get true 1, .empty false, .put, .pop, .size (1 : Nat)]
                : List (Result Nat Nat))
          = Result.countPuts
              ([.put, .put, .get true 1, .empty false, .put, .pop, .size (1 : Nat)]
                : List (Result Nat Nat))) :=
  have h : (TQueue.ctor : TQueue Nat TQueueSl TQtMutexGuard).run 0
      [.put 1, .put 2, .get, .empty, .put 3, .pop, .size]
      = some ([.put, .put, .get true 1, .empty false, .put, .pop, .size (1 : Nat)], 1,
          ⟨⟨⟨[3]⟩⟩, GuardType.ctor⟩) := rfl
  ⟨TQtMutexGuard.available_qtMutex _, h,
    (TQueue.queries_pure (TQtMutexGuard.available_qtMutex _) GuardType.ctor
      (TQtMutexGuard.available_qtMutex _) ([] : List Nat)
      [.put 1, .put 2, .get, .empty, .put 3, .pop, .size] 0).1.2.2 _ _ _ h⟩
